import Mathlib

/-!
Verification of the retirement-calculator simulation engine.

The JavaScript engine (the `Simulation` object of the two test bundles, which embed
identical copies of the production engine except where noted) is shallowly embedded
here over `ℚ`: every JS number is modelled as a rational, `null`/absent numeric input
fields as `0` (in every use site of this engine `x || 0` and `x && x > 0` treat `0`
and a missing field identically), and JS `null` for `ruinAge` as `Option ℤ`.
Randomness is modelled by an oracle `z : ℕ → ℚ` supplying the standard-normal deviate
consumed in year `i`; deterministic mode never reads the oracle.
-/

namespace RetCalc

/-- The engine's per-run input record (spec §3).  All monetary and rate fields are
rationals; ages are integers.  A missing optional field is modelled as `0`. -/
structure Inputs where
  retirementAge : ℤ
  planningAge : ℤ
  startingPortfolio : ℚ
  expectedReturn : ℚ
  volatility : ℚ
  inflationRate : ℚ
  socialSecurity : ℚ
  ssStartAge : ℤ
  oneTimeExpense : ℚ
  minSpending : ℚ
  maxSpending : ℚ
  startingWithdrawal : ℚ
  deriving Repr, DecidableEq, Inhabited

/-- Source `generateReturn(mean, volatility, deterministic)`: the deterministic branch
returns `mean / 100` without touching the random source; the stochastic branch
consumes one standard-normal deviate `z`. -/
def generateReturn (mean volatility : ℚ) (deterministic : Bool) (z : ℚ) : ℚ :=
  if deterministic then mean / 100 else (mean + z * volatility) / 100

/-- Source `lifeExpectancy(age)`: the actuarial step table. -/
def lifeExpectancy (age : ℚ) : ℚ :=
  if age < 60 then 95 - age
  else if age < 70 then 90 - age
  else if age < 80 then 87 - age
  else if age < 90 then 94 - age
  else max 2 (100 - age)

/-- Source `vpwPercentage(yearsRemaining, stockAllocation)`: the variable-percentage table. -/
def vpwPercentage (yearsRemaining stockAllocation : ℚ) : ℚ :=
  if 30 ≤ yearsRemaining then 3 + stockAllocation * (2/100)
  else if 25 ≤ yearsRemaining then 35/10 + stockAllocation * (2/100)
  else if 20 ≤ yearsRemaining then 4 + stockAllocation * (25/1000)
  else if 15 ≤ yearsRemaining then 5 + stockAllocation * (3/100)
  else if 10 ≤ yearsRemaining then 65/10 + stockAllocation * (35/1000)
  else if 5 ≤ yearsRemaining then 9 + stockAllocation * (4/100)
  else min 100 (20 + yearsRemaining * 2)

/-- Source `const inflationMultiplier = 1 + inputs.inflationRate / 100`. -/
def inflationMultiplier (inputs : Inputs) : ℚ := 1 + inputs.inflationRate / 100

/-- Source `oneTimeExpenseThisYear`: in every fifth retirement year (`(i+1) % 5 === 0`) the
one-time expense, compounded by the inflation multiplier.  Note the source guards
only missing values (`inputs.oneTimeExpense || 0`); a negative value passes through. -/
def oneTimeExpenseThisYear (inputs : Inputs) (i : ℕ) : ℚ :=
  if (i + 1) % 5 = 0 then inputs.oneTimeExpense * inflationMultiplier inputs ^ i else 0

/-- Source `ss`: the year's Social Security, inflation-indexed over
`ssYearsReceiving = max(0, age - ssStartAge)`, and `0` before `ssStartAge`. -/
def ssThisYear (inputs : Inputs) (age : ℤ) : ℚ :=
  if inputs.ssStartAge ≤ age then
    inputs.socialSecurity * inflationMultiplier inputs ^ (age - inputs.ssStartAge).toNat
  else 0

/-- Source `netWithdrawal = Math.max(0, withdrawal - ss) + oneTimeExpenseThisYear`. -/
def netWithdrawalOf (w ss ote : ℚ) : ℚ := max 0 (w - ss) + ote

/-- The min/max spending clamp shared by the strategies:
`targetWithdrawal = Math.max(targetWithdrawal, inflationAdjustedMinSpending)` followed
by `Math.min` with the inflation-adjusted ceiling.  The source encodes "no ceiling"
(`maxSpending` not positive) as an `Infinity` ceiling; that case is modelled by
`none`. -/
def clampSpending (t minAdj : ℚ) (maxAdj : Option ℚ) : ℚ :=
  match maxAdj with
  | none => max t minAdj
  | some m => min (max t minAdj) m

/-- The ceiling argument the strategies pass to `clampSpending` for year `i`:
`baseMaxSpending > 0 ? baseMaxSpending * Math.pow(inflationMultiplier, i) : Infinity`. -/
def maxAdjOf (inputs : Inputs) (i : ℕ) : Option ℚ :=
  if 0 < inputs.maxSpending then some (inputs.maxSpending * inflationMultiplier inputs ^ i)
  else none

/-- The year-stepping tail shared verbatim by all five strategy loops:
`portfolio -= netWithdrawal`, clamp a negative balance to zero marking first ruin,
`portfolio *= (1 + returnPct)`, and after the record is pushed re-check
`portfolio <= 0 && !ruined`.  Returns (end-of-year portfolio, ruined, ruinAge).
In the clamp branch the flag is already true, so the post-record check cannot fire. -/
def applyYear (age : ℤ) (r net p : ℚ) (ruined : Bool) (ruinAge : Option ℤ) :
    ℚ × Bool × Option ℤ :=
  if p - net < 0 then
    (0 * (1 + r), true, if ruined then ruinAge else some age)
  else if (p - net) * (1 + r) ≤ 0 ∧ ruined = false then
    ((p - net) * (1 + r), true, some age)
  else ((p - net) * (1 + r), ruined, ruinAge)

/-- The summary record every strategy returns (`years`, `finalBalance`,
`totalWithdrawals`, `ruined`, `ruinAge`), generic over the strategy's year record. -/
structure SimResult (Y : Type) where
  years : List Y
  finalBalance : ℚ
  totalWithdrawals : ℚ
  ruined : Bool
  ruinAge : Option ℤ
  deriving Repr, DecidableEq, Inhabited

/-! ### Constant Real strategy (part_001 copy, lines 148–232) -/

/-- The year record `strategyConstantReal` pushes. -/
structure CRYear where
  year : ℕ
  age : ℤ
  portfolioStart : ℚ
  returnPct : ℚ
  withdrawal : ℚ
  portfolioEnd : ℚ
  ruined : Bool
  ssReceived : ℚ
  baseWithdrawal : ℚ
  deriving Repr, DecidableEq, Inhabited

/-- Loop state of `strategyConstantReal`: the mutable locals of the source loop. -/
structure CRState where
  portfolio : ℚ
  withdrawal : ℚ
  records : List CRYear
  ruined : Bool
  ruinAge : Option ℤ
  deriving Repr, DecidableEq, Inhabited

/-- State before the first year: `baseWithdrawal` is `startingWithdrawal` when that is
positive, else 4.5% of the starting portfolio; then floored at `minSpending` and, when
`maxSpending` is positive, capped at it. -/
def crInit (inputs : Inputs) : CRState :=
  let initialRate : ℚ := 45/10
  let baseWithdrawal :=
    if 0 < inputs.startingWithdrawal then inputs.startingWithdrawal
    else inputs.startingPortfolio * (initialRate / 100)
  let initialWithdrawal0 := max baseWithdrawal inputs.minSpending
  let initialWithdrawal :=
    if 0 < inputs.maxSpending then min initialWithdrawal0 inputs.maxSpending
    else initialWithdrawal0
  { portfolio := inputs.startingPortfolio, withdrawal := initialWithdrawal,
    records := [], ruined := false, ruinAge := none }

/-- The in-loop re-cap of the carried withdrawal: when `maxSpending` is positive,
`withdrawal = Math.min(withdrawal, inflationAdjustedMaxSpending)`.  (This strategy
reapplies only the ceiling inside the loop, not the floor.) -/
def crCapped (inputs : Inputs) (i : ℕ) (s : CRState) : ℚ :=
  if 0 < inputs.maxSpending then
    min s.withdrawal (inputs.maxSpending * inflationMultiplier inputs ^ i)
  else s.withdrawal

/-- The year's net withdrawal in `strategyConstantReal`. -/
def crNet (inputs : Inputs) (i : ℕ) (s : CRState) : ℚ :=
  netWithdrawalOf (crCapped inputs i s) (ssThisYear inputs (inputs.retirementAge + i))
    (oneTimeExpenseThisYear inputs i)

/-- The record pushed in year `i` of `strategyConstantReal` from loop state `s`. -/
def crRecOf (inputs : Inputs) (det : Bool) (z : ℕ → ℚ) (i : ℕ) (s : CRState) : CRYear :=
  let age := inputs.retirementAge + i
  let r := generateReturn inputs.expectedReturn inputs.volatility det (z i)
  let pe := (applyYear age r (crNet inputs i s) s.portfolio s.ruined s.ruinAge).1
  { year := i, age := age, portfolioStart := s.portfolio, returnPct := r * 100,
    withdrawal := crNet inputs i s, portfolioEnd := pe, ruined := decide (pe ≤ 0),
    ssReceived := ssThisYear inputs age, baseWithdrawal := crCapped inputs i s }

/-- One loop iteration of `strategyConstantReal`; at the end
`withdrawal *= inflationMultiplier`. -/
def crStep (inputs : Inputs) (det : Bool) (z : ℕ → ℚ) (i : ℕ) (s : CRState) : CRState :=
  let age := inputs.retirementAge + i
  let r := generateReturn inputs.expectedReturn inputs.volatility det (z i)
  let a := applyYear age r (crNet inputs i s) s.portfolio s.ruined s.ruinAge
  { portfolio := a.1,
    withdrawal := crCapped inputs i s * inflationMultiplier inputs,
    records := s.records ++ [crRecOf inputs det z i s],
    ruined := a.2.1, ruinAge := a.2.2 }

/-- Loop state after `n` iterations of `strategyConstantReal`. -/
def crStates (inputs : Inputs) (det : Bool) (z : ℕ → ℚ) : ℕ → CRState
  | 0 => crInit inputs
  | n + 1 => crStep inputs det z n (crStates inputs det z n)

/-- Source `strategyConstantReal` (part_001 copy): run
`years = planningAge - retirementAge` iterations and package the result. -/
def strategyConstantReal (inputs : Inputs) (det : Bool) (z : ℕ → ℚ) : SimResult CRYear :=
  let s := crStates inputs det z (inputs.planningAge - inputs.retirementAge).toNat
  { years := s.records, finalBalance := s.portfolio,
    totalWithdrawals := (s.records.map (·.withdrawal)).sum,
    ruined := s.ruined, ruinAge := s.ruinAge }

/-! ### Constant Percent strategy (part_001, lines 234–309) -/

/-- The year record `strategyConstantPercent` pushes. -/
structure CPYear where
  year : ℕ
  age : ℤ
  portfolioStart : ℚ
  returnPct : ℚ
  withdrawal : ℚ
  targetWithdrawal : ℚ
  portfolioEnd : ℚ
  ruined : Bool
  deriving Repr, DecidableEq, Inhabited

/-- Loop state of `strategyConstantPercent`. -/
structure CPState where
  portfolio : ℚ
  records : List CPYear
  ruined : Bool
  ruinAge : Option ℤ
  deriving Repr, DecidableEq, Inhabited

/-- The year's clamped withdrawal target: `startingWithdrawal` in year 1 when
positive, else 4% of the current portfolio; then min/max-clamped. -/
def cpTarget (inputs : Inputs) (i : ℕ) (s : CPState) : ℚ :=
  let withdrawalRate : ℚ := 4
  let t0 :=
    if i = 0 ∧ 0 < inputs.startingWithdrawal then inputs.startingWithdrawal
    else s.portfolio * (withdrawalRate / 100)
  clampSpending t0 (inputs.minSpending * inflationMultiplier inputs ^ i) (maxAdjOf inputs i)

/-- The year's net withdrawal in `strategyConstantPercent`. -/
def cpNet (inputs : Inputs) (i : ℕ) (s : CPState) : ℚ :=
  netWithdrawalOf (cpTarget inputs i s) (ssThisYear inputs (inputs.retirementAge + i))
    (oneTimeExpenseThisYear inputs i)

/-- The record pushed in year `i` of `strategyConstantPercent`. -/
def cpRecOf (inputs : Inputs) (det : Bool) (z : ℕ → ℚ) (i : ℕ) (s : CPState) : CPYear :=
  let age := inputs.retirementAge + i
  let r := generateReturn inputs.expectedReturn inputs.volatility det (z i)
  let pe := (applyYear age r (cpNet inputs i s) s.portfolio s.ruined s.ruinAge).1
  { year := i, age := age, portfolioStart := s.portfolio, returnPct := r * 100,
    withdrawal := cpNet inputs i s, targetWithdrawal := cpTarget inputs i s,
    portfolioEnd := pe, ruined := decide (pe ≤ 0) }

/-- One loop iteration of `strategyConstantPercent`. -/
def cpStep (inputs : Inputs) (det : Bool) (z : ℕ → ℚ) (i : ℕ) (s : CPState) : CPState :=
  let age := inputs.retirementAge + i
  let r := generateReturn inputs.expectedReturn inputs.volatility det (z i)
  let a := applyYear age r (cpNet inputs i s) s.portfolio s.ruined s.ruinAge
  { portfolio := a.1, records := s.records ++ [cpRecOf inputs det z i s],
    ruined := a.2.1, ruinAge := a.2.2 }

/-- Loop state after `n` iterations of `strategyConstantPercent`. -/
def cpStates (inputs : Inputs) (det : Bool) (z : ℕ → ℚ) : ℕ → CPState
  | 0 => { portfolio := inputs.startingPortfolio, records := [],
           ruined := false, ruinAge := none }
  | n + 1 => cpStep inputs det z n (cpStates inputs det z n)

/-- Source `strategyConstantPercent`. -/
def strategyConstantPercent (inputs : Inputs) (det : Bool) (z : ℕ → ℚ) : SimResult CPYear :=
  let s := cpStates inputs det z (inputs.planningAge - inputs.retirementAge).toNat
  { years := s.records, finalBalance := s.portfolio,
    totalWithdrawals := (s.records.map (·.withdrawal)).sum,
    ruined := s.ruined, ruinAge := s.ruinAge }

/-! ### VPW strategy (part_001, lines 311–391) -/

/-- The year record `strategyVPW` pushes. -/
structure VPWYear where
  year : ℕ
  age : ℤ
  portfolioStart : ℚ
  returnPct : ℚ
  withdrawal : ℚ
  vpwPct : ℚ
  targetWithdrawal : ℚ
  portfolioEnd : ℚ
  ruined : Bool
  deriving Repr, DecidableEq, Inhabited

/-- Loop state of `strategyVPW`. -/
structure VPWState where
  portfolio : ℚ
  records : List VPWYear
  ruined : Bool
  ruinAge : Option ℤ
  deriving Repr, DecidableEq, Inhabited

/-- The year's clamped withdrawal target: `startingWithdrawal` in year 1 when
positive, else `vpwPercentage(yearsRemaining, 60)` percent of the current
portfolio; then min/max-clamped. -/
def vpwTarget (inputs : Inputs) (i : ℕ) (s : VPWState) : ℚ :=
  let age := inputs.retirementAge + i
  let vpwPct := vpwPercentage ((inputs.planningAge - age : ℤ) : ℚ) 60
  let t0 :=
    if i = 0 ∧ 0 < inputs.startingWithdrawal then inputs.startingWithdrawal
    else s.portfolio * (vpwPct / 100)
  clampSpending t0 (inputs.minSpending * inflationMultiplier inputs ^ i) (maxAdjOf inputs i)

/-- The year's net withdrawal in `strategyVPW`. -/
def vpwNet (inputs : Inputs) (i : ℕ) (s : VPWState) : ℚ :=
  netWithdrawalOf (vpwTarget inputs i s) (ssThisYear inputs (inputs.retirementAge + i))
    (oneTimeExpenseThisYear inputs i)

/-- The record pushed in year `i` of `strategyVPW`. -/
def vpwRecOf (inputs : Inputs) (det : Bool) (z : ℕ → ℚ) (i : ℕ) (s : VPWState) : VPWYear :=
  let age := inputs.retirementAge + i
  let r := generateReturn inputs.expectedReturn inputs.volatility det (z i)
  let pe := (applyYear age r (vpwNet inputs i s) s.portfolio s.ruined s.ruinAge).1
  { year := i, age := age, portfolioStart := s.portfolio, returnPct := r * 100,
    withdrawal := vpwNet inputs i s,
    vpwPct := vpwPercentage ((inputs.planningAge - age : ℤ) : ℚ) 60,
    targetWithdrawal := vpwTarget inputs i s,
    portfolioEnd := pe, ruined := decide (pe ≤ 0) }

/-- One loop iteration of `strategyVPW`. -/
def vpwStep (inputs : Inputs) (det : Bool) (z : ℕ → ℚ) (i : ℕ) (s : VPWState) : VPWState :=
  let age := inputs.retirementAge + i
  let r := generateReturn inputs.expectedReturn inputs.volatility det (z i)
  let a := applyYear age r (vpwNet inputs i s) s.portfolio s.ruined s.ruinAge
  { portfolio := a.1, records := s.records ++ [vpwRecOf inputs det z i s],
    ruined := a.2.1, ruinAge := a.2.2 }

/-- Loop state after `n` iterations of `strategyVPW`. -/
def vpwStates (inputs : Inputs) (det : Bool) (z : ℕ → ℚ) : ℕ → VPWState
  | 0 => { portfolio := inputs.startingPortfolio, records := [],
           ruined := false, ruinAge := none }
  | n + 1 => vpwStep inputs det z n (vpwStates inputs det z n)

/-- Source `strategyVPW`. -/
def strategyVPW (inputs : Inputs) (det : Bool) (z : ℕ → ℚ) : SimResult VPWYear :=
  let s := vpwStates inputs det z (inputs.planningAge - inputs.retirementAge).toNat
  { years := s.records, finalBalance := s.portfolio,
    totalWithdrawals := (s.records.map (·.withdrawal)).sum,
    ruined := s.ruined, ruinAge := s.ruinAge }

/-! ### Guardrails strategy (part_001, lines 393–495) -/

/-- The year record `strategyGuardrails` pushes.  At `portfolioStart = 0` the source's
recorded `currentRate` is IEEE `±Infinity` (or `NaN` for `0/0`), which `ℚ` cannot
represent; the `ℚ`-convention `w / 0 = 0` is recorded there instead, while the
guardrail branch itself encodes the IEEE comparison outcome (see `gAdjusted`). -/
structure GYear where
  year : ℕ
  age : ℤ
  portfolioStart : ℚ
  returnPct : ℚ
  withdrawal : ℚ
  baseWithdrawal : ℚ
  currentRate : ℚ
  portfolioEnd : ℚ
  ruined : Bool
  deriving Repr, DecidableEq, Inhabited

/-- Loop state of `strategyGuardrails`: carries the persistent `withdrawal`. -/
structure GState where
  portfolio : ℚ
  withdrawal : ℚ
  records : List GYear
  ruined : Bool
  ruinAge : Option ℤ
  deriving Repr, DecidableEq, Inhabited

/-- State before the first year: `baseWithdrawal` is `startingWithdrawal` when
positive, else 5% of the starting portfolio; then floored at `minSpending` and,
when `maxSpending` is positive, capped at it. -/
def gInit (inputs : Inputs) : GState :=
  let initialRate : ℚ := 5
  let baseWithdrawal :=
    if 0 < inputs.startingWithdrawal then inputs.startingWithdrawal
    else inputs.startingPortfolio * (initialRate / 100)
  let withdrawal0 := max baseWithdrawal inputs.minSpending
  let withdrawal :=
    if 0 < inputs.maxSpending then min withdrawal0 inputs.maxSpending else withdrawal0
  { portfolio := inputs.startingPortfolio, withdrawal := withdrawal,
    records := [], ruined := false, ruinAge := none }

/-- The guardrail adjustment of the carried withdrawal.  Skipped in year 1 exactly
when a positive `startingWithdrawal` was supplied.  Otherwise
`currentRate = withdrawal / portfolioStart * 100` is compared with the guardrails
`5.0 * 1.20` and `5.0 * 0.80`.  At `portfolioStart = 0` the JS rate is `±Infinity`
(`NaN` for `0/0`), so the cut branch fires exactly when the withdrawal is positive
and the raise branch never fires (it also requires `portfolio > 0`); that IEEE
case split is written out explicitly since `ℚ` has no infinities. -/
def gAdjusted (inputs : Inputs) (i : ℕ) (s : GState) : ℚ :=
  let initialRate : ℚ := 5
  let upperGuardrail := initialRate * (12/10)
  let lowerGuardrail := initialRate * (8/10)
  let adjustmentFactor : ℚ := 1/10
  let currentRate := s.withdrawal / s.portfolio * 100
  if i = 0 ∧ 0 < inputs.startingWithdrawal then s.withdrawal
  else if s.portfolio = 0 then
    (if 0 < s.withdrawal then s.withdrawal * (1 - adjustmentFactor) else s.withdrawal)
  else if upperGuardrail < currentRate then s.withdrawal * (1 - adjustmentFactor)
  else if currentRate < lowerGuardrail ∧ 0 < s.portfolio then
    s.withdrawal * (1 + adjustmentFactor)
  else s.withdrawal

/-- The adjusted withdrawal after the min/max spending clamp. -/
def gClamped (inputs : Inputs) (i : ℕ) (s : GState) : ℚ :=
  clampSpending (gAdjusted inputs i s) (inputs.minSpending * inflationMultiplier inputs ^ i)
    (maxAdjOf inputs i)

/-- The year's net withdrawal in `strategyGuardrails`. -/
def gNet (inputs : Inputs) (i : ℕ) (s : GState) : ℚ :=
  netWithdrawalOf (gClamped inputs i s) (ssThisYear inputs (inputs.retirementAge + i))
    (oneTimeExpenseThisYear inputs i)

/-- The record pushed in year `i` of `strategyGuardrails`. -/
def gRecOf (inputs : Inputs) (det : Bool) (z : ℕ → ℚ) (i : ℕ) (s : GState) : GYear :=
  let age := inputs.retirementAge + i
  let r := generateReturn inputs.expectedReturn inputs.volatility det (z i)
  let pe := (applyYear age r (gNet inputs i s) s.portfolio s.ruined s.ruinAge).1
  { year := i, age := age, portfolioStart := s.portfolio, returnPct := r * 100,
    withdrawal := gNet inputs i s, baseWithdrawal := gClamped inputs i s,
    currentRate := s.withdrawal / s.portfolio * 100,
    portfolioEnd := pe, ruined := decide (pe ≤ 0) }

/-- One loop iteration of `strategyGuardrails`; at the end
`withdrawal *= inflationMultiplier`. -/
def gStep (inputs : Inputs) (det : Bool) (z : ℕ → ℚ) (i : ℕ) (s : GState) : GState :=
  let age := inputs.retirementAge + i
  let r := generateReturn inputs.expectedReturn inputs.volatility det (z i)
  let a := applyYear age r (gNet inputs i s) s.portfolio s.ruined s.ruinAge
  { portfolio := a.1,
    withdrawal := gClamped inputs i s * inflationMultiplier inputs,
    records := s.records ++ [gRecOf inputs det z i s],
    ruined := a.2.1, ruinAge := a.2.2 }

/-- Loop state after `n` iterations of `strategyGuardrails`. -/
def gStates (inputs : Inputs) (det : Bool) (z : ℕ → ℚ) : ℕ → GState
  | 0 => gInit inputs
  | n + 1 => gStep inputs det z n (gStates inputs det z n)

/-- Source `strategyGuardrails`. -/
def strategyGuardrails (inputs : Inputs) (det : Bool) (z : ℕ → ℚ) : SimResult GYear :=
  let s := gStates inputs det z (inputs.planningAge - inputs.retirementAge).toNat
  { years := s.records, finalBalance := s.portfolio,
    totalWithdrawals := (s.records.map (·.withdrawal)).sum,
    ruined := s.ruined, ruinAge := s.ruinAge }

/-! ### RMD strategy (part_001, lines 497–577) -/

/-- The year record `strategyRMD` pushes. -/
structure RMDYear where
  year : ℕ
  age : ℤ
  portfolioStart : ℚ
  returnPct : ℚ
  withdrawal : ℚ
  lifeExp : ℚ
  rmdWithdrawal : ℚ
  targetWithdrawal : ℚ
  portfolioEnd : ℚ
  ruined : Bool
  deriving Repr, DecidableEq, Inhabited

/-- Loop state of `strategyRMD`. -/
structure RMDState where
  portfolio : ℚ
  records : List RMDYear
  ruined : Bool
  ruinAge : Option ℤ
  deriving Repr, DecidableEq, Inhabited

/-- The year's clamped withdrawal target: `startingWithdrawal` in year 1 when
positive, else `portfolio / lifeExpectancy(age)`; then min/max-clamped. -/
def rmdTarget (inputs : Inputs) (i : ℕ) (s : RMDState) : ℚ :=
  let age := inputs.retirementAge + i
  let t0 :=
    if i = 0 ∧ 0 < inputs.startingWithdrawal then inputs.startingWithdrawal
    else s.portfolio / lifeExpectancy (age : ℚ)
  clampSpending t0 (inputs.minSpending * inflationMultiplier inputs ^ i) (maxAdjOf inputs i)

/-- The year's net withdrawal in `strategyRMD`. -/
def rmdNet (inputs : Inputs) (i : ℕ) (s : RMDState) : ℚ :=
  netWithdrawalOf (rmdTarget inputs i s) (ssThisYear inputs (inputs.retirementAge + i))
    (oneTimeExpenseThisYear inputs i)

/-- The record pushed in year `i` of `strategyRMD`. -/
def rmdRecOf (inputs : Inputs) (det : Bool) (z : ℕ → ℚ) (i : ℕ) (s : RMDState) : RMDYear :=
  let age := inputs.retirementAge + i
  let r := generateReturn inputs.expectedReturn inputs.volatility det (z i)
  let pe := (applyYear age r (rmdNet inputs i s) s.portfolio s.ruined s.ruinAge).1
  { year := i, age := age, portfolioStart := s.portfolio, returnPct := r * 100,
    withdrawal := rmdNet inputs i s, lifeExp := lifeExpectancy (age : ℚ),
    rmdWithdrawal := s.portfolio / lifeExpectancy (age : ℚ),
    targetWithdrawal := rmdTarget inputs i s,
    portfolioEnd := pe, ruined := decide (pe ≤ 0) }

/-- One loop iteration of `strategyRMD`. -/
def rmdStep (inputs : Inputs) (det : Bool) (z : ℕ → ℚ) (i : ℕ) (s : RMDState) : RMDState :=
  let age := inputs.retirementAge + i
  let r := generateReturn inputs.expectedReturn inputs.volatility det (z i)
  let a := applyYear age r (rmdNet inputs i s) s.portfolio s.ruined s.ruinAge
  { portfolio := a.1, records := s.records ++ [rmdRecOf inputs det z i s],
    ruined := a.2.1, ruinAge := a.2.2 }

/-- Loop state after `n` iterations of `strategyRMD`. -/
def rmdStates (inputs : Inputs) (det : Bool) (z : ℕ → ℚ) : ℕ → RMDState
  | 0 => { portfolio := inputs.startingPortfolio, records := [],
           ruined := false, ruinAge := none }
  | n + 1 => rmdStep inputs det z n (rmdStates inputs det z n)

/-- Source `strategyRMD`. -/
def strategyRMD (inputs : Inputs) (det : Bool) (z : ℕ → ℚ) : SimResult RMDYear :=
  let s := rmdStates inputs det z (inputs.planningAge - inputs.retirementAge).toNat
  { years := s.records, finalBalance := s.portfolio,
    totalWithdrawals := (s.records.map (·.withdrawal)).sum,
    ruined := s.ruined, ruinAge := s.ruinAge }

/-! ### Constant Real strategy, part_000 copy (lines 148–212)

The part_000 bundle carries an older copy of `strategyConstantReal`: no
`startingWithdrawal` override, no `maxSpending` handling (neither at
initialisation nor inside the loop).  The loop body is otherwise identical,
and it pushes the same record shape, so `CRYear`/`CRState` are reused. -/

namespace Engine000

/-- State before the first year in the part_000 copy:
`initialWithdrawal = max(4.5% of the portfolio, minSpending)`. -/
def crInit (inputs : Inputs) : CRState :=
  let initialRate : ℚ := 45/10
  let calculatedWithdrawal := inputs.startingPortfolio * (initialRate / 100)
  { portfolio := inputs.startingPortfolio,
    withdrawal := max calculatedWithdrawal inputs.minSpending,
    records := [], ruined := false, ruinAge := none }

/-- The year's net withdrawal in the part_000 copy (no in-loop cap). -/
def crNet (inputs : Inputs) (i : ℕ) (s : CRState) : ℚ :=
  netWithdrawalOf s.withdrawal (ssThisYear inputs (inputs.retirementAge + i))
    (oneTimeExpenseThisYear inputs i)

/-- The record pushed in year `i` of the part_000 copy. -/
def crRecOf (inputs : Inputs) (det : Bool) (z : ℕ → ℚ) (i : ℕ) (s : CRState) : CRYear :=
  let age := inputs.retirementAge + i
  let r := generateReturn inputs.expectedReturn inputs.volatility det (z i)
  let pe := (applyYear age r (crNet inputs i s) s.portfolio s.ruined s.ruinAge).1
  { year := i, age := age, portfolioStart := s.portfolio, returnPct := r * 100,
    withdrawal := crNet inputs i s, portfolioEnd := pe, ruined := decide (pe ≤ 0),
    ssReceived := ssThisYear inputs age, baseWithdrawal := s.withdrawal }

/-- One loop iteration of the part_000 copy. -/
def crStep (inputs : Inputs) (det : Bool) (z : ℕ → ℚ) (i : ℕ) (s : CRState) : CRState :=
  let age := inputs.retirementAge + i
  let r := generateReturn inputs.expectedReturn inputs.volatility det (z i)
  let a := applyYear age r (crNet inputs i s) s.portfolio s.ruined s.ruinAge
  { portfolio := a.1,
    withdrawal := s.withdrawal * inflationMultiplier inputs,
    records := s.records ++ [crRecOf inputs det z i s],
    ruined := a.2.1, ruinAge := a.2.2 }

/-- Loop state after `n` iterations of the part_000 copy. -/
def crStates (inputs : Inputs) (det : Bool) (z : ℕ → ℚ) : ℕ → CRState
  | 0 => crInit inputs
  | n + 1 => crStep inputs det z n (crStates inputs det z n)

/-- Source `strategyConstantReal`, part_000 copy. -/
def strategyConstantReal (inputs : Inputs) (det : Bool) (z : ℕ → ℚ) : SimResult CRYear :=
  let s := crStates inputs det z (inputs.planningAge - inputs.retirementAge).toNat
  { years := s.records, finalBalance := s.portfolio,
    totalWithdrawals := (s.records.map (·.withdrawal)).sum,
    ruined := s.ruined, ruinAge := s.ruinAge }

end Engine000

/-! ### Basic lemmas about the shared year tail -/

lemma applyYear_fst (age : ℤ) (r net p : ℚ) (ru : Bool) (ra : Option ℤ) :
    (applyYear age r net p ru ra).1 = (if p - net < 0 then 0 else p - net) * (1 + r) := by
  unfold applyYear
  split_ifs <;> rfl

/-- The ruin flag after a year is the old flag `or`-ed with "the end-of-year balance
is not positive": the clamp branch forces the balance to `0`, so it also sets it. -/
lemma applyYear_ruined (age : ℤ) (r net p : ℚ) (ru : Bool) (ra : Option ℤ) :
    (applyYear age r net p ru ra).2.1 =
      (ru || decide ((applyYear age r net p ru ra).1 ≤ 0)) := by
  unfold applyYear
  by_cases h1 : p - net < 0
  · simp [h1]
  · by_cases h2 : (p - net) * (1 + r) ≤ 0 ∧ ru = false
    · simp [h1, h2, h2.1]
    · rw [if_neg h1, if_neg h2]
      by_cases hr : ru = true
      · simp [hr]
      · simp only [Bool.not_eq_true] at hr
        subst hr
        have h3 : ¬ (p - net) * (1 + r) ≤ 0 := fun hle => h2 ⟨hle, rfl⟩
        simp [h1, h3]

/-- Field `ruinAge` is set (to the current age) exactly on the first year the flag turns
true, and never touched afterwards. -/
lemma applyYear_ruinAge (age : ℤ) (r net p : ℚ) (ru : Bool) (ra : Option ℤ) :
    (applyYear age r net p ru ra).2.2 =
      (if ru = false ∧ (applyYear age r net p ru ra).1 ≤ 0 then some age else ra) := by
  unfold applyYear
  by_cases h1 : p - net < 0
  · rw [if_pos h1]
    by_cases hr : ru = true
    · simp [hr]
    · simp only [Bool.not_eq_true] at hr
      simp [hr]
  · by_cases h2 : (p - net) * (1 + r) ≤ 0 ∧ ru = false
    · simp [h1, h2, h2.1, h2.2]
    · rw [if_neg h1, if_neg h2]
      have h3 : ¬ (ru = false ∧ ((p - net) * (1 + r), ru, ra).1 ≤ 0) :=
        fun h => h2 ⟨h.2, h.1⟩
      rw [if_neg h3]

/-! ### The records of each strategy as a map over the year range -/

lemma crStates_records (inputs : Inputs) (det : Bool) (z : ℕ → ℚ) (n : ℕ) :
    (crStates inputs det z n).records =
      (List.range n).map (fun i => crRecOf inputs det z i (crStates inputs det z i)) := by
  induction n with
  | zero => rfl
  | succ n ih => simp [crStates, crStep, List.range_succ, ih]

lemma cpStates_records (inputs : Inputs) (det : Bool) (z : ℕ → ℚ) (n : ℕ) :
    (cpStates inputs det z n).records =
      (List.range n).map (fun i => cpRecOf inputs det z i (cpStates inputs det z i)) := by
  induction n with
  | zero => rfl
  | succ n ih => simp [cpStates, cpStep, List.range_succ, ih]

lemma vpwStates_records (inputs : Inputs) (det : Bool) (z : ℕ → ℚ) (n : ℕ) :
    (vpwStates inputs det z n).records =
      (List.range n).map (fun i => vpwRecOf inputs det z i (vpwStates inputs det z i)) := by
  induction n with
  | zero => rfl
  | succ n ih => simp [vpwStates, vpwStep, List.range_succ, ih]

lemma gStates_records (inputs : Inputs) (det : Bool) (z : ℕ → ℚ) (n : ℕ) :
    (gStates inputs det z n).records =
      (List.range n).map (fun i => gRecOf inputs det z i (gStates inputs det z i)) := by
  induction n with
  | zero => rfl
  | succ n ih => simp [gStates, gStep, List.range_succ, ih]

lemma rmdStates_records (inputs : Inputs) (det : Bool) (z : ℕ → ℚ) (n : ℕ) :
    (rmdStates inputs det z n).records =
      (List.range n).map (fun i => rmdRecOf inputs det z i (rmdStates inputs det z i)) := by
  induction n with
  | zero => rfl
  | succ n ih => simp [rmdStates, rmdStep, List.range_succ, ih]

lemma crStates000_records (inputs : Inputs) (det : Bool) (z : ℕ → ℚ) (n : ℕ) :
    (Engine000.crStates inputs det z n).records =
      (List.range n).map
        (fun i => Engine000.crRecOf inputs det z i (Engine000.crStates inputs det z i)) := by
  induction n with
  | zero => rfl
  | succ n ih => simp [Engine000.crStates, Engine000.crStep, List.range_succ, ih]

lemma mem_crYears {inputs : Inputs} {det : Bool} {z : ℕ → ℚ} {yr : CRYear}
    (h : yr ∈ (strategyConstantReal inputs det z).years) :
    ∃ i, yr = crRecOf inputs det z i (crStates inputs det z i) := by
  simp only [strategyConstantReal, crStates_records, List.mem_map, List.mem_range] at h
  obtain ⟨i, _, hi⟩ := h
  exact ⟨i, hi.symm⟩

lemma mem_cpYears {inputs : Inputs} {det : Bool} {z : ℕ → ℚ} {yr : CPYear}
    (h : yr ∈ (strategyConstantPercent inputs det z).years) :
    ∃ i, yr = cpRecOf inputs det z i (cpStates inputs det z i) := by
  simp only [strategyConstantPercent, cpStates_records, List.mem_map, List.mem_range] at h
  obtain ⟨i, _, hi⟩ := h
  exact ⟨i, hi.symm⟩

lemma mem_vpwYears {inputs : Inputs} {det : Bool} {z : ℕ → ℚ} {yr : VPWYear}
    (h : yr ∈ (strategyVPW inputs det z).years) :
    ∃ i, yr = vpwRecOf inputs det z i (vpwStates inputs det z i) := by
  simp only [strategyVPW, vpwStates_records, List.mem_map, List.mem_range] at h
  obtain ⟨i, _, hi⟩ := h
  exact ⟨i, hi.symm⟩

lemma mem_gYears {inputs : Inputs} {det : Bool} {z : ℕ → ℚ} {yr : GYear}
    (h : yr ∈ (strategyGuardrails inputs det z).years) :
    ∃ i, yr = gRecOf inputs det z i (gStates inputs det z i) := by
  simp only [strategyGuardrails, gStates_records, List.mem_map, List.mem_range] at h
  obtain ⟨i, _, hi⟩ := h
  exact ⟨i, hi.symm⟩

lemma mem_rmdYears {inputs : Inputs} {det : Bool} {z : ℕ → ℚ} {yr : RMDYear}
    (h : yr ∈ (strategyRMD inputs det z).years) :
    ∃ i, yr = rmdRecOf inputs det z i (rmdStates inputs det z i) := by
  simp only [strategyRMD, rmdStates_records, List.mem_map, List.mem_range] at h
  obtain ⟨i, _, hi⟩ := h
  exact ⟨i, hi.symm⟩

/-! ### Nonnegativity building blocks -/

lemma inflationMultiplier_nonneg (inputs : Inputs) (h : -100 ≤ inputs.inflationRate) :
    0 ≤ inflationMultiplier inputs := by
  unfold inflationMultiplier
  linarith

lemma ote_nonneg (inputs : Inputs) (i : ℕ) (h1 : 0 ≤ inputs.oneTimeExpense)
    (h2 : -100 ≤ inputs.inflationRate) : 0 ≤ oneTimeExpenseThisYear inputs i := by
  unfold oneTimeExpenseThisYear
  split_ifs
  · exact mul_nonneg h1 (pow_nonneg (inflationMultiplier_nonneg inputs h2) i)
  · exact le_refl 0

lemma netWithdrawalOf_nonneg (w ss ote : ℚ) (h : 0 ≤ ote) :
    0 ≤ netWithdrawalOf w ss ote :=
  add_nonneg (le_max_left 0 _) h

lemma applyYear_fst_nonneg (age : ℤ) (r net p : ℚ) (ru : Bool) (ra : Option ℤ)
    (hr : -1 ≤ r) : 0 ≤ (applyYear age r net p ru ra).1 := by
  rw [applyYear_fst]
  apply mul_nonneg
  · split_ifs with h
    · exact le_refl 0
    · linarith
  · linarith

/-! ### Claim C1 -/

/-- Inputs refuting claim C1: a deterministic −200% annual return. -/
def c1Inputs : Inputs :=
  { retirementAge := 65, planningAge := 66, startingPortfolio := 100,
    expectedReturn := -200, volatility := 0, inflationRate := 0,
    socialSecurity := 0, ssStartAge := 200, oneTimeExpense := 0,
    minSpending := 0, maxSpending := 0, startingWithdrawal := 0 }

/-- Claim C1, counterexample: the clamp to zero happens before the return is applied,
so a return below −100% (here deterministic `expectedReturn = -200`) multiplies a
positive balance by a negative factor and the recorded `portfolioEnd` is negative
(−95.5 in year one of this run). -/
theorem claim1_counterexample :
    ∃ yr ∈ (strategyConstantReal c1Inputs true (fun _ => 0)).years,
      yr.portfolioEnd < 0 := by
  refine ⟨crRecOf c1Inputs true (fun _ => 0) 0 (crStates c1Inputs true (fun _ => 0) 0),
    ?_, ?_⟩
  · have h : (c1Inputs.planningAge - c1Inputs.retirementAge).toNat = 1 := by decide
    simp [strategyConstantReal, crStates_records, h]
  · norm_num [crRecOf, crStates, crInit, crNet, crCapped, netWithdrawalOf, ssThisYear,
      oneTimeExpenseThisYear, applyYear, generateReturn, inflationMultiplier, c1Inputs,
      max_def, min_def]

/-- Claim C1, amended: in every strategy and every emitted year record,
`portfolioEnd ≥ 0` provided each year's generated return fraction is at least −1
(return percentage ≥ −100); the overdraft is indeed clamped to zero before the
return is applied, but a return below −100% then drives the balance negative. -/
theorem claim1_portfolioEnd_nonneg (inputs : Inputs) (det : Bool) (z : ℕ → ℚ)
    (hr : ∀ i, -1 ≤ generateReturn inputs.expectedReturn inputs.volatility det (z i)) :
    (∀ yr ∈ (strategyConstantReal inputs det z).years, 0 ≤ yr.portfolioEnd) ∧
    (∀ yr ∈ (strategyConstantPercent inputs det z).years, 0 ≤ yr.portfolioEnd) ∧
    (∀ yr ∈ (strategyVPW inputs det z).years, 0 ≤ yr.portfolioEnd) ∧
    (∀ yr ∈ (strategyGuardrails inputs det z).years, 0 ≤ yr.portfolioEnd) ∧
    (∀ yr ∈ (strategyRMD inputs det z).years, 0 ≤ yr.portfolioEnd) := by
  refine ⟨fun yr h => ?_, fun yr h => ?_, fun yr h => ?_, fun yr h => ?_, fun yr h => ?_⟩
  · obtain ⟨i, rfl⟩ := mem_crYears h
    exact applyYear_fst_nonneg _ _ _ _ _ _ (hr i)
  · obtain ⟨i, rfl⟩ := mem_cpYears h
    exact applyYear_fst_nonneg _ _ _ _ _ _ (hr i)
  · obtain ⟨i, rfl⟩ := mem_vpwYears h
    exact applyYear_fst_nonneg _ _ _ _ _ _ (hr i)
  · obtain ⟨i, rfl⟩ := mem_gYears h
    exact applyYear_fst_nonneg _ _ _ _ _ _ (hr i)
  · obtain ⟨i, rfl⟩ := mem_rmdYears h
    exact applyYear_fst_nonneg _ _ _ _ _ _ (hr i)

/-- Inputs witnessing claim C1's amended theorem at a concrete run. -/
def w1Inputs : Inputs :=
  { retirementAge := 65, planningAge := 68, startingPortfolio := 1000000,
    expectedReturn := 6, volatility := 0, inflationRate := 25/10,
    socialSecurity := 0, ssStartAge := 67, oneTimeExpense := 0,
    minSpending := 0, maxSpending := 0, startingWithdrawal := 0 }

theorem claim1_witness :
    ((strategyConstantReal w1Inputs true (fun _ => 0)).years.all
      fun yr => decide (0 ≤ yr.portfolioEnd)) = true := by
  have h := (claim1_portfolioEnd_nonneg w1Inputs true (fun _ => 0)
    (by intro i; norm_num [generateReturn, w1Inputs])).1
  rw [List.all_eq_true]
  intro yr hyr
  simpa using h yr hyr

/-! ### Claim C2 -/

/-- Inputs refuting claim C2: a negative `oneTimeExpense` is not normalised away
(`inputs.oneTimeExpense || 0` only catches missing values). -/
def c2Inputs : Inputs :=
  { retirementAge := 60, planningAge := 65, startingPortfolio := 1000,
    expectedReturn := 0, volatility := 0, inflationRate := 0,
    socialSecurity := 0, ssStartAge := 200, oneTimeExpense := -100000,
    minSpending := 0, maxSpending := 0, startingWithdrawal := 0 }

/-- Claim C2, counterexample: with `oneTimeExpense = -100000` the fifth-year
recorded withdrawal is `max(0, 45 - 0) + (-100000) = -99955 < 0`; a negative
`oneTimeExpense` is passed through, not treated as 0. -/
theorem claim2_counterexample :
    ∃ yr ∈ (strategyConstantReal c2Inputs true (fun _ => 0)).years,
      yr.withdrawal < 0 := by
  refine ⟨crRecOf c2Inputs true (fun _ => 0) 4 (crStates c2Inputs true (fun _ => 0) 4),
    ?_, ?_⟩
  · have h : (c2Inputs.planningAge - c2Inputs.retirementAge).toNat = 5 := by decide
    rw [strategyConstantReal]
    rw [h, crStates_records]
    simp only [List.mem_map, List.mem_range]
    exact ⟨4, by norm_num, rfl⟩
  · norm_num [crRecOf, crStates, crStep, crInit, crNet, crCapped, netWithdrawalOf,
      ssThisYear, oneTimeExpenseThisYear, applyYear, generateReturn, inflationMultiplier,
      c2Inputs, max_def, min_def]

/-- Claim C2, amended: the recorded withdrawal is nonnegative in every year of every
strategy provided `oneTimeExpense ≥ 0` and `inflationRate ≥ −100`; negative
`startingWithdrawal`/`maxSpending` are indeed treated as absent (their uses are
guarded by `> 0`), but a negative `oneTimeExpense` (or `minSpending`) passes
through the `|| 0` default, and a negative one-time expense makes the recorded
withdrawal negative. -/
theorem claim2_withdrawal_nonneg (inputs : Inputs) (det : Bool) (z : ℕ → ℚ)
    (h1 : 0 ≤ inputs.oneTimeExpense) (h2 : -100 ≤ inputs.inflationRate) :
    (∀ yr ∈ (strategyConstantReal inputs det z).years, 0 ≤ yr.withdrawal) ∧
    (∀ yr ∈ (strategyConstantPercent inputs det z).years, 0 ≤ yr.withdrawal) ∧
    (∀ yr ∈ (strategyVPW inputs det z).years, 0 ≤ yr.withdrawal) ∧
    (∀ yr ∈ (strategyGuardrails inputs det z).years, 0 ≤ yr.withdrawal) ∧
    (∀ yr ∈ (strategyRMD inputs det z).years, 0 ≤ yr.withdrawal) := by
  refine ⟨fun yr h => ?_, fun yr h => ?_, fun yr h => ?_, fun yr h => ?_, fun yr h => ?_⟩
  · obtain ⟨i, rfl⟩ := mem_crYears h
    exact netWithdrawalOf_nonneg _ _ _ (ote_nonneg inputs i h1 h2)
  · obtain ⟨i, rfl⟩ := mem_cpYears h
    exact netWithdrawalOf_nonneg _ _ _ (ote_nonneg inputs i h1 h2)
  · obtain ⟨i, rfl⟩ := mem_vpwYears h
    exact netWithdrawalOf_nonneg _ _ _ (ote_nonneg inputs i h1 h2)
  · obtain ⟨i, rfl⟩ := mem_gYears h
    exact netWithdrawalOf_nonneg _ _ _ (ote_nonneg inputs i h1 h2)
  · obtain ⟨i, rfl⟩ := mem_rmdYears h
    exact netWithdrawalOf_nonneg _ _ _ (ote_nonneg inputs i h1 h2)

/-- Inputs witnessing claim C2's amended theorem at a concrete run. -/
def w2Inputs : Inputs :=
  { retirementAge := 60, planningAge := 66, startingPortfolio := 800000,
    expectedReturn := 5, volatility := 0, inflationRate := 3,
    socialSecurity := 20000, ssStartAge := 62, oneTimeExpense := 10000,
    minSpending := 0, maxSpending := 0, startingWithdrawal := 0 }

theorem claim2_witness :
    ((strategyGuardrails w2Inputs true (fun _ => 0)).years.all
      fun yr => decide (0 ≤ yr.withdrawal)) = true := by
  have h := (claim2_withdrawal_nonneg w2Inputs true (fun _ => 0)
    (by norm_num [w2Inputs]) (by norm_num [w2Inputs])).2.2.2.1
  rw [List.all_eq_true]
  intro yr hyr
  simpa using h yr hyr

lemma applyYear_fst_zero (age : ℤ) (r net p : ℚ) (ru : Bool) (ra : Option ℤ)
    (h : p - net ≤ 0) : (applyYear age r net p ru ra).1 = 0 := by
  rw [applyYear_fst]
  by_cases h' : p - net < 0
  · rw [if_pos h', zero_mul]
  · rw [if_neg h', le_antisymm h (not_lt.mp h'), zero_mul]


lemma crStates_ruin_inv (inputs : Inputs) (det : Bool) (z : ℕ → ℚ)
    (h1 : 0 ≤ inputs.oneTimeExpense) (h2 : -100 ≤ inputs.inflationRate) (n : ℕ) :
    ((crStates inputs det z n).ruined =
        (crStates inputs det z n).records.any (fun a => a.ruined)) ∧
    ((crStates inputs det z n).ruined = true → (crStates inputs det z n).portfolio ≤ 0) ∧
    ((crStates inputs det z n).ruinAge =
        ((crStates inputs det z n).records.find? (fun a => a.ruined)).map (fun a => a.age)) ∧
    (crStates inputs det z n).records.Pairwise
      (fun a b => a.ruined = true → b.ruined = true) := by
  induction n with
  | zero => simp [crStates, crInit]
  | succ n ih =>
    obtain ⟨ihA, ihB, ihC, ihD⟩ := ih
    set s := crStates inputs det z n with hs
    have hnet : 0 ≤ crNet inputs n s :=
      netWithdrawalOf_nonneg _ _ _ (ote_nonneg inputs n h1 h2)
    set age : ℤ := inputs.retirementAge + n with hage
    set r : ℚ := generateReturn inputs.expectedReturn inputs.volatility det (z n) with hr
    set pe : ℚ := (applyYear age r (crNet inputs n s) s.portfolio s.ruined s.ruinAge).1
      with hpe
    have hstep : crStates inputs det z (n+1) = crStep inputs det z n s := rfl
    have hrecRuined : (crRecOf inputs det z n s).ruined = decide (pe ≤ 0) := rfl
    have hrecAge : (crRecOf inputs det z n s).age = age := rfl
    have hP : (crStates inputs det z (n+1)).portfolio = pe := rfl
    have hRu : (crStates inputs det z (n+1)).ruined = (s.ruined || decide (pe ≤ 0)) := by
      rw [hstep]
      show (applyYear age r (crNet inputs n s) s.portfolio s.ruined s.ruinAge).2.1 = _
      rw [applyYear_ruined, ← hpe]
    have hRa : (crStates inputs det z (n+1)).ruinAge =
        (if s.ruined = false ∧ pe ≤ 0 then some age else s.ruinAge) := by
      rw [hstep]
      show (applyYear age r (crNet inputs n s) s.portfolio s.ruined s.ruinAge).2.2 = _
      rw [applyYear_ruinAge, ← hpe]
    have hRecs : (crStates inputs det z (n+1)).records =
        s.records ++ [crRecOf inputs det z n s] := rfl
    have hzero : s.ruined = true → pe = 0 := by
      intro hru
      exact applyYear_fst_zero _ _ _ _ _ _ (by linarith [ihB hru, hnet])
    constructor
    · rw [hRu, hRecs, List.any_append, ihA]
      simp [hrecRuined]
    constructor
    · intro hru
      rw [hRu] at hru
      rw [hP]
      rcases Bool.or_eq_true_iff.mp hru with h | h
      · rw [hzero h]
      · exact of_decide_eq_true h
    constructor
    · rw [hRa, hRecs, List.find?_append]
      by_cases hru : s.ruined = true
      · have hsome : (s.records.find? (fun a => a.ruined)).isSome := by
          rw [List.find?_isSome]
          rw [ihA] at hru
          simpa using List.any_eq_true.mp hru
        obtain ⟨u, hu⟩ := Option.isSome_iff_exists.mp hsome
        rw [hu, if_neg (by simp [hru]), ihC, hu]
        rfl
      · simp only [Bool.not_eq_true] at hru
        have hnone : s.records.find? (fun a => a.ruined) = none := by
          rw [List.find?_eq_none]
          intro x hx
          have := (List.any_eq_true.not.mp (by rw [← ihA, hru]; simp): _)
          simp only [not_exists, not_and] at this
          simp [this x hx]
        rw [hnone, ihC, hnone, hru]
        by_cases hple : pe ≤ 0
        · rw [if_pos ⟨rfl, hple⟩]
          simp [hple, Option.or, List.find?, hrecRuined, hrecAge]
        · rw [if_neg (by simp [hple])]
          simp [hple, Option.or, List.find?, hrecRuined]
    · rw [hRecs]
      rw [List.pairwise_append]
      refine ⟨ihD, by simp, ?_⟩
      intro a ha b hb hru
      simp only [List.mem_singleton] at hb
      subst hb
      by_cases hsru : s.ruined = true
      · rw [hrecRuined]
        simp [hzero hsru]
      · exfalso
        simp only [Bool.not_eq_true] at hsru
        rw [ihA] at hsru
        have := List.any_eq_true.not.mp (by rw [hsru]; simp)
        simp only [not_exists, not_and] at this
        exact (this a ha) hru


lemma cpStates_ruin_inv (inputs : Inputs) (det : Bool) (z : ℕ → ℚ)
    (h1 : 0 ≤ inputs.oneTimeExpense) (h2 : -100 ≤ inputs.inflationRate) (n : ℕ) :
    ((cpStates inputs det z n).ruined =
        (cpStates inputs det z n).records.any (fun a => a.ruined)) ∧
    ((cpStates inputs det z n).ruined = true → (cpStates inputs det z n).portfolio ≤ 0) ∧
    ((cpStates inputs det z n).ruinAge =
        ((cpStates inputs det z n).records.find? (fun a => a.ruined)).map (fun a => a.age)) ∧
    (cpStates inputs det z n).records.Pairwise
      (fun a b => a.ruined = true → b.ruined = true) := by
  induction n with
  | zero => simp [cpStates]
  | succ n ih =>
    obtain ⟨ihA, ihB, ihC, ihD⟩ := ih
    set s := cpStates inputs det z n with hs
    have hnet : 0 ≤ cpNet inputs n s :=
      netWithdrawalOf_nonneg _ _ _ (ote_nonneg inputs n h1 h2)
    set age : ℤ := inputs.retirementAge + n with hage
    set r : ℚ := generateReturn inputs.expectedReturn inputs.volatility det (z n) with hr
    set pe : ℚ := (applyYear age r (cpNet inputs n s) s.portfolio s.ruined s.ruinAge).1
      with hpe
    have hstep : cpStates inputs det z (n+1) = cpStep inputs det z n s := rfl
    have hrecRuined : (cpRecOf inputs det z n s).ruined = decide (pe ≤ 0) := rfl
    have hrecAge : (cpRecOf inputs det z n s).age = age := rfl
    have hP : (cpStates inputs det z (n+1)).portfolio = pe := rfl
    have hRu : (cpStates inputs det z (n+1)).ruined = (s.ruined || decide (pe ≤ 0)) := by
      rw [hstep]
      show (applyYear age r (cpNet inputs n s) s.portfolio s.ruined s.ruinAge).2.1 = _
      rw [applyYear_ruined, ← hpe]
    have hRa : (cpStates inputs det z (n+1)).ruinAge =
        (if s.ruined = false ∧ pe ≤ 0 then some age else s.ruinAge) := by
      rw [hstep]
      show (applyYear age r (cpNet inputs n s) s.portfolio s.ruined s.ruinAge).2.2 = _
      rw [applyYear_ruinAge, ← hpe]
    have hRecs : (cpStates inputs det z (n+1)).records =
        s.records ++ [cpRecOf inputs det z n s] := rfl
    have hzero : s.ruined = true → pe = 0 := by
      intro hru
      exact applyYear_fst_zero _ _ _ _ _ _ (by linarith [ihB hru, hnet])
    constructor
    · rw [hRu, hRecs, List.any_append, ihA]
      simp [hrecRuined]
    constructor
    · intro hru
      rw [hRu] at hru
      rw [hP]
      rcases Bool.or_eq_true_iff.mp hru with h | h
      · rw [hzero h]
      · exact of_decide_eq_true h
    constructor
    · rw [hRa, hRecs, List.find?_append]
      by_cases hru : s.ruined = true
      · have hsome : (s.records.find? (fun a => a.ruined)).isSome := by
          rw [List.find?_isSome]
          rw [ihA] at hru
          simpa using List.any_eq_true.mp hru
        obtain ⟨u, hu⟩ := Option.isSome_iff_exists.mp hsome
        rw [hu, if_neg (by simp [hru]), ihC, hu]
        rfl
      · simp only [Bool.not_eq_true] at hru
        have hnone : s.records.find? (fun a => a.ruined) = none := by
          rw [List.find?_eq_none]
          intro x hx
          have := (List.any_eq_true.not.mp (by rw [← ihA, hru]; simp): _)
          simp only [not_exists, not_and] at this
          simp [this x hx]
        rw [hnone, ihC, hnone, hru]
        by_cases hple : pe ≤ 0
        · rw [if_pos ⟨rfl, hple⟩]
          simp [hple, Option.or, List.find?, hrecRuined, hrecAge]
        · rw [if_neg (by simp [hple])]
          simp [hple, Option.or, List.find?, hrecRuined]
    · rw [hRecs]
      rw [List.pairwise_append]
      refine ⟨ihD, by simp, ?_⟩
      intro a ha b hb hru
      simp only [List.mem_singleton] at hb
      subst hb
      by_cases hsru : s.ruined = true
      · rw [hrecRuined]
        simp [hzero hsru]
      · exfalso
        simp only [Bool.not_eq_true] at hsru
        rw [ihA] at hsru
        have := List.any_eq_true.not.mp (by rw [hsru]; simp)
        simp only [not_exists, not_and] at this
        exact (this a ha) hru


lemma vpwStates_ruin_inv (inputs : Inputs) (det : Bool) (z : ℕ → ℚ)
    (h1 : 0 ≤ inputs.oneTimeExpense) (h2 : -100 ≤ inputs.inflationRate) (n : ℕ) :
    ((vpwStates inputs det z n).ruined =
        (vpwStates inputs det z n).records.any (fun a => a.ruined)) ∧
    ((vpwStates inputs det z n).ruined = true → (vpwStates inputs det z n).portfolio ≤ 0) ∧
    ((vpwStates inputs det z n).ruinAge =
        ((vpwStates inputs det z n).records.find? (fun a => a.ruined)).map (fun a => a.age)) ∧
    (vpwStates inputs det z n).records.Pairwise
      (fun a b => a.ruined = true → b.ruined = true) := by
  induction n with
  | zero => simp [vpwStates]
  | succ n ih =>
    obtain ⟨ihA, ihB, ihC, ihD⟩ := ih
    set s := vpwStates inputs det z n with hs
    have hnet : 0 ≤ vpwNet inputs n s :=
      netWithdrawalOf_nonneg _ _ _ (ote_nonneg inputs n h1 h2)
    set age : ℤ := inputs.retirementAge + n with hage
    set r : ℚ := generateReturn inputs.expectedReturn inputs.volatility det (z n) with hr
    set pe : ℚ := (applyYear age r (vpwNet inputs n s) s.portfolio s.ruined s.ruinAge).1
      with hpe
    have hstep : vpwStates inputs det z (n+1) = vpwStep inputs det z n s := rfl
    have hrecRuined : (vpwRecOf inputs det z n s).ruined = decide (pe ≤ 0) := rfl
    have hrecAge : (vpwRecOf inputs det z n s).age = age := rfl
    have hP : (vpwStates inputs det z (n+1)).portfolio = pe := rfl
    have hRu : (vpwStates inputs det z (n+1)).ruined = (s.ruined || decide (pe ≤ 0)) := by
      rw [hstep]
      show (applyYear age r (vpwNet inputs n s) s.portfolio s.ruined s.ruinAge).2.1 = _
      rw [applyYear_ruined, ← hpe]
    have hRa : (vpwStates inputs det z (n+1)).ruinAge =
        (if s.ruined = false ∧ pe ≤ 0 then some age else s.ruinAge) := by
      rw [hstep]
      show (applyYear age r (vpwNet inputs n s) s.portfolio s.ruined s.ruinAge).2.2 = _
      rw [applyYear_ruinAge, ← hpe]
    have hRecs : (vpwStates inputs det z (n+1)).records =
        s.records ++ [vpwRecOf inputs det z n s] := rfl
    have hzero : s.ruined = true → pe = 0 := by
      intro hru
      exact applyYear_fst_zero _ _ _ _ _ _ (by linarith [ihB hru, hnet])
    constructor
    · rw [hRu, hRecs, List.any_append, ihA]
      simp [hrecRuined]
    constructor
    · intro hru
      rw [hRu] at hru
      rw [hP]
      rcases Bool.or_eq_true_iff.mp hru with h | h
      · rw [hzero h]
      · exact of_decide_eq_true h
    constructor
    · rw [hRa, hRecs, List.find?_append]
      by_cases hru : s.ruined = true
      · have hsome : (s.records.find? (fun a => a.ruined)).isSome := by
          rw [List.find?_isSome]
          rw [ihA] at hru
          simpa using List.any_eq_true.mp hru
        obtain ⟨u, hu⟩ := Option.isSome_iff_exists.mp hsome
        rw [hu, if_neg (by simp [hru]), ihC, hu]
        rfl
      · simp only [Bool.not_eq_true] at hru
        have hnone : s.records.find? (fun a => a.ruined) = none := by
          rw [List.find?_eq_none]
          intro x hx
          have := (List.any_eq_true.not.mp (by rw [← ihA, hru]; simp): _)
          simp only [not_exists, not_and] at this
          simp [this x hx]
        rw [hnone, ihC, hnone, hru]
        by_cases hple : pe ≤ 0
        · rw [if_pos ⟨rfl, hple⟩]
          simp [hple, Option.or, List.find?, hrecRuined, hrecAge]
        · rw [if_neg (by simp [hple])]
          simp [hple, Option.or, List.find?, hrecRuined]
    · rw [hRecs]
      rw [List.pairwise_append]
      refine ⟨ihD, by simp, ?_⟩
      intro a ha b hb hru
      simp only [List.mem_singleton] at hb
      subst hb
      by_cases hsru : s.ruined = true
      · rw [hrecRuined]
        simp [hzero hsru]
      · exfalso
        simp only [Bool.not_eq_true] at hsru
        rw [ihA] at hsru
        have := List.any_eq_true.not.mp (by rw [hsru]; simp)
        simp only [not_exists, not_and] at this
        exact (this a ha) hru


lemma gStates_ruin_inv (inputs : Inputs) (det : Bool) (z : ℕ → ℚ)
    (h1 : 0 ≤ inputs.oneTimeExpense) (h2 : -100 ≤ inputs.inflationRate) (n : ℕ) :
    ((gStates inputs det z n).ruined =
        (gStates inputs det z n).records.any (fun a => a.ruined)) ∧
    ((gStates inputs det z n).ruined = true → (gStates inputs det z n).portfolio ≤ 0) ∧
    ((gStates inputs det z n).ruinAge =
        ((gStates inputs det z n).records.find? (fun a => a.ruined)).map (fun a => a.age)) ∧
    (gStates inputs det z n).records.Pairwise
      (fun a b => a.ruined = true → b.ruined = true) := by
  induction n with
  | zero => simp [gStates, gInit]
  | succ n ih =>
    obtain ⟨ihA, ihB, ihC, ihD⟩ := ih
    set s := gStates inputs det z n with hs
    have hnet : 0 ≤ gNet inputs n s :=
      netWithdrawalOf_nonneg _ _ _ (ote_nonneg inputs n h1 h2)
    set age : ℤ := inputs.retirementAge + n with hage
    set r : ℚ := generateReturn inputs.expectedReturn inputs.volatility det (z n) with hr
    set pe : ℚ := (applyYear age r (gNet inputs n s) s.portfolio s.ruined s.ruinAge).1
      with hpe
    have hstep : gStates inputs det z (n+1) = gStep inputs det z n s := rfl
    have hrecRuined : (gRecOf inputs det z n s).ruined = decide (pe ≤ 0) := rfl
    have hrecAge : (gRecOf inputs det z n s).age = age := rfl
    have hP : (gStates inputs det z (n+1)).portfolio = pe := rfl
    have hRu : (gStates inputs det z (n+1)).ruined = (s.ruined || decide (pe ≤ 0)) := by
      rw [hstep]
      show (applyYear age r (gNet inputs n s) s.portfolio s.ruined s.ruinAge).2.1 = _
      rw [applyYear_ruined, ← hpe]
    have hRa : (gStates inputs det z (n+1)).ruinAge =
        (if s.ruined = false ∧ pe ≤ 0 then some age else s.ruinAge) := by
      rw [hstep]
      show (applyYear age r (gNet inputs n s) s.portfolio s.ruined s.ruinAge).2.2 = _
      rw [applyYear_ruinAge, ← hpe]
    have hRecs : (gStates inputs det z (n+1)).records =
        s.records ++ [gRecOf inputs det z n s] := rfl
    have hzero : s.ruined = true → pe = 0 := by
      intro hru
      exact applyYear_fst_zero _ _ _ _ _ _ (by linarith [ihB hru, hnet])
    constructor
    · rw [hRu, hRecs, List.any_append, ihA]
      simp [hrecRuined]
    constructor
    · intro hru
      rw [hRu] at hru
      rw [hP]
      rcases Bool.or_eq_true_iff.mp hru with h | h
      · rw [hzero h]
      · exact of_decide_eq_true h
    constructor
    · rw [hRa, hRecs, List.find?_append]
      by_cases hru : s.ruined = true
      · have hsome : (s.records.find? (fun a => a.ruined)).isSome := by
          rw [List.find?_isSome]
          rw [ihA] at hru
          simpa using List.any_eq_true.mp hru
        obtain ⟨u, hu⟩ := Option.isSome_iff_exists.mp hsome
        rw [hu, if_neg (by simp [hru]), ihC, hu]
        rfl
      · simp only [Bool.not_eq_true] at hru
        have hnone : s.records.find? (fun a => a.ruined) = none := by
          rw [List.find?_eq_none]
          intro x hx
          have := (List.any_eq_true.not.mp (by rw [← ihA, hru]; simp): _)
          simp only [not_exists, not_and] at this
          simp [this x hx]
        rw [hnone, ihC, hnone, hru]
        by_cases hple : pe ≤ 0
        · rw [if_pos ⟨rfl, hple⟩]
          simp [hple, Option.or, List.find?, hrecRuined, hrecAge]
        · rw [if_neg (by simp [hple])]
          simp [hple, Option.or, List.find?, hrecRuined]
    · rw [hRecs]
      rw [List.pairwise_append]
      refine ⟨ihD, by simp, ?_⟩
      intro a ha b hb hru
      simp only [List.mem_singleton] at hb
      subst hb
      by_cases hsru : s.ruined = true
      · rw [hrecRuined]
        simp [hzero hsru]
      · exfalso
        simp only [Bool.not_eq_true] at hsru
        rw [ihA] at hsru
        have := List.any_eq_true.not.mp (by rw [hsru]; simp)
        simp only [not_exists, not_and] at this
        exact (this a ha) hru


lemma rmdStates_ruin_inv (inputs : Inputs) (det : Bool) (z : ℕ → ℚ)
    (h1 : 0 ≤ inputs.oneTimeExpense) (h2 : -100 ≤ inputs.inflationRate) (n : ℕ) :
    ((rmdStates inputs det z n).ruined =
        (rmdStates inputs det z n).records.any (fun a => a.ruined)) ∧
    ((rmdStates inputs det z n).ruined = true → (rmdStates inputs det z n).portfolio ≤ 0) ∧
    ((rmdStates inputs det z n).ruinAge =
        ((rmdStates inputs det z n).records.find? (fun a => a.ruined)).map (fun a => a.age)) ∧
    (rmdStates inputs det z n).records.Pairwise
      (fun a b => a.ruined = true → b.ruined = true) := by
  induction n with
  | zero => simp [rmdStates]
  | succ n ih =>
    obtain ⟨ihA, ihB, ihC, ihD⟩ := ih
    set s := rmdStates inputs det z n with hs
    have hnet : 0 ≤ rmdNet inputs n s :=
      netWithdrawalOf_nonneg _ _ _ (ote_nonneg inputs n h1 h2)
    set age : ℤ := inputs.retirementAge + n with hage
    set r : ℚ := generateReturn inputs.expectedReturn inputs.volatility det (z n) with hr
    set pe : ℚ := (applyYear age r (rmdNet inputs n s) s.portfolio s.ruined s.ruinAge).1
      with hpe
    have hstep : rmdStates inputs det z (n+1) = rmdStep inputs det z n s := rfl
    have hrecRuined : (rmdRecOf inputs det z n s).ruined = decide (pe ≤ 0) := rfl
    have hrecAge : (rmdRecOf inputs det z n s).age = age := rfl
    have hP : (rmdStates inputs det z (n+1)).portfolio = pe := rfl
    have hRu : (rmdStates inputs det z (n+1)).ruined = (s.ruined || decide (pe ≤ 0)) := by
      rw [hstep]
      show (applyYear age r (rmdNet inputs n s) s.portfolio s.ruined s.ruinAge).2.1 = _
      rw [applyYear_ruined, ← hpe]
    have hRa : (rmdStates inputs det z (n+1)).ruinAge =
        (if s.ruined = false ∧ pe ≤ 0 then some age else s.ruinAge) := by
      rw [hstep]
      show (applyYear age r (rmdNet inputs n s) s.portfolio s.ruined s.ruinAge).2.2 = _
      rw [applyYear_ruinAge, ← hpe]
    have hRecs : (rmdStates inputs det z (n+1)).records =
        s.records ++ [rmdRecOf inputs det z n s] := rfl
    have hzero : s.ruined = true → pe = 0 := by
      intro hru
      exact applyYear_fst_zero _ _ _ _ _ _ (by linarith [ihB hru, hnet])
    constructor
    · rw [hRu, hRecs, List.any_append, ihA]
      simp [hrecRuined]
    constructor
    · intro hru
      rw [hRu] at hru
      rw [hP]
      rcases Bool.or_eq_true_iff.mp hru with h | h
      · rw [hzero h]
      · exact of_decide_eq_true h
    constructor
    · rw [hRa, hRecs, List.find?_append]
      by_cases hru : s.ruined = true
      · have hsome : (s.records.find? (fun a => a.ruined)).isSome := by
          rw [List.find?_isSome]
          rw [ihA] at hru
          simpa using List.any_eq_true.mp hru
        obtain ⟨u, hu⟩ := Option.isSome_iff_exists.mp hsome
        rw [hu, if_neg (by simp [hru]), ihC, hu]
        rfl
      · simp only [Bool.not_eq_true] at hru
        have hnone : s.records.find? (fun a => a.ruined) = none := by
          rw [List.find?_eq_none]
          intro x hx
          have := (List.any_eq_true.not.mp (by rw [← ihA, hru]; simp): _)
          simp only [not_exists, not_and] at this
          simp [this x hx]
        rw [hnone, ihC, hnone, hru]
        by_cases hple : pe ≤ 0
        · rw [if_pos ⟨rfl, hple⟩]
          simp [hple, Option.or, List.find?, hrecRuined, hrecAge]
        · rw [if_neg (by simp [hple])]
          simp [hple, Option.or, List.find?, hrecRuined]
    · rw [hRecs]
      rw [List.pairwise_append]
      refine ⟨ihD, by simp, ?_⟩
      intro a ha b hb hru
      simp only [List.mem_singleton] at hb
      subst hb
      by_cases hsru : s.ruined = true
      · rw [hrecRuined]
        simp [hzero hsru]
      · exfalso
        simp only [Bool.not_eq_true] at hsru
        rw [ihA] at hsru
        have := List.any_eq_true.not.mp (by rw [hsru]; simp)
        simp only [not_exists, not_and] at this
        exact (this a ha) hru

/-! ### Claim C3 -/

/-- Inputs refuting claim C3: ruin in year 2, then a negative `oneTimeExpense` in
year 5 adds money back, so the year-5 record reports `ruined = false` again. -/
def c3Inputs : Inputs :=
  { retirementAge := 60, planningAge := 65, startingPortfolio := 100,
    expectedReturn := 0, volatility := 0, inflationRate := 0,
    socialSecurity := 0, ssStartAge := 200, oneTimeExpense := -1000,
    minSpending := 0, maxSpending := 0, startingWithdrawal := 90 }

/-- Claim C3, counterexample: the year-index-1 record reports `ruined = true` but the
year-index-4 record of the same run reports `ruined = false` (a negative one-time
expense resurrects the balance), so a later `YearRecord` does not stay ruined. -/
theorem claim3_counterexample :
    ∃ yr ∈ (strategyConstantReal c3Inputs true (fun _ => 0)).years,
    ∃ yr' ∈ (strategyConstantReal c3Inputs true (fun _ => 0)).years,
      yr.year < yr'.year ∧ yr.ruined = true ∧ yr'.ruined = false := by
  have h : (c3Inputs.planningAge - c3Inputs.retirementAge).toNat = 5 := by decide
  refine ⟨crRecOf c3Inputs true (fun _ => 0) 1 (crStates c3Inputs true (fun _ => 0) 1),
    ?_, crRecOf c3Inputs true (fun _ => 0) 4 (crStates c3Inputs true (fun _ => 0) 4),
    ?_, by decide, ?_, ?_⟩
  · rw [strategyConstantReal, h, crStates_records]
    simp only [List.mem_map, List.mem_range]
    exact ⟨1, by norm_num, rfl⟩
  · rw [strategyConstantReal, h, crStates_records]
    simp only [List.mem_map, List.mem_range]
    exact ⟨4, by norm_num, rfl⟩
  · norm_num [crRecOf, crStates, crStep, crInit, crNet, crCapped, netWithdrawalOf,
      ssThisYear, oneTimeExpenseThisYear, applyYear, generateReturn, inflationMultiplier,
      c3Inputs, max_def, min_def]
  · norm_num [crRecOf, crStates, crStep, crInit, crNet, crCapped, netWithdrawalOf,
      ssThisYear, oneTimeExpenseThisYear, applyYear, generateReturn, inflationMultiplier,
      c3Inputs, max_def, min_def]

/-- Claim C3, amended: in every strategy, provided `oneTimeExpense ≥ 0` and
`inflationRate ≥ −100` (so net withdrawals cannot be negative and re-fund a dead
portfolio), the per-year `ruined` fields are monotone — once a record reports
`ruined = true`, every later record does — and the run's `ruinAge` is exactly the
`age` of the first record whose `ruined` field is true (`none` when no ruin),
hence it is fixed at the first occurrence and never changed afterwards.  Without
those bounds a negative fifth-year expense resurrects the balance and a later
record reports `ruined = false` (see the counterexample). -/
theorem claim3_ruin_sticky (inputs : Inputs) (det : Bool) (z : ℕ → ℚ)
    (h1 : 0 ≤ inputs.oneTimeExpense) (h2 : -100 ≤ inputs.inflationRate) :
    ((strategyConstantReal inputs det z).ruinAge =
        (((strategyConstantReal inputs det z).years.find? (fun a => a.ruined)).map
          (fun a => a.age)) ∧
      (strategyConstantReal inputs det z).years.Pairwise
        (fun a b => a.ruined = true → b.ruined = true)) ∧
    ((strategyConstantPercent inputs det z).ruinAge =
        (((strategyConstantPercent inputs det z).years.find? (fun a => a.ruined)).map
          (fun a => a.age)) ∧
      (strategyConstantPercent inputs det z).years.Pairwise
        (fun a b => a.ruined = true → b.ruined = true)) ∧
    ((strategyVPW inputs det z).ruinAge =
        (((strategyVPW inputs det z).years.find? (fun a => a.ruined)).map
          (fun a => a.age)) ∧
      (strategyVPW inputs det z).years.Pairwise
        (fun a b => a.ruined = true → b.ruined = true)) ∧
    ((strategyGuardrails inputs det z).ruinAge =
        (((strategyGuardrails inputs det z).years.find? (fun a => a.ruined)).map
          (fun a => a.age)) ∧
      (strategyGuardrails inputs det z).years.Pairwise
        (fun a b => a.ruined = true → b.ruined = true)) ∧
    ((strategyRMD inputs det z).ruinAge =
        (((strategyRMD inputs det z).years.find? (fun a => a.ruined)).map
          (fun a => a.age)) ∧
      (strategyRMD inputs det z).years.Pairwise
        (fun a b => a.ruined = true → b.ruined = true)) := by
  have hcr := crStates_ruin_inv inputs det z h1 h2
    (inputs.planningAge - inputs.retirementAge).toNat
  have hcp := cpStates_ruin_inv inputs det z h1 h2
    (inputs.planningAge - inputs.retirementAge).toNat
  have hvpw := vpwStates_ruin_inv inputs det z h1 h2
    (inputs.planningAge - inputs.retirementAge).toNat
  have hg := gStates_ruin_inv inputs det z h1 h2
    (inputs.planningAge - inputs.retirementAge).toNat
  have hrmd := rmdStates_ruin_inv inputs det z h1 h2
    (inputs.planningAge - inputs.retirementAge).toNat
  exact ⟨⟨hcr.2.2.1, hcr.2.2.2⟩, ⟨hcp.2.2.1, hcp.2.2.2⟩, ⟨hvpw.2.2.1, hvpw.2.2.2⟩,
    ⟨hg.2.2.1, hg.2.2.2⟩, ⟨hrmd.2.2.1, hrmd.2.2.2⟩⟩

/-- Inputs witnessing claim C3's amended theorem: this run actually ruins. -/
def w3Inputs : Inputs :=
  { retirementAge := 60, planningAge := 65, startingPortfolio := 100,
    expectedReturn := 0, volatility := 0, inflationRate := 0,
    socialSecurity := 0, ssStartAge := 200, oneTimeExpense := 0,
    minSpending := 0, maxSpending := 0, startingWithdrawal := 90 }

theorem claim3_witness :
    (strategyConstantReal w3Inputs true (fun _ => 0)).ruinAge =
      (((strategyConstantReal w3Inputs true (fun _ => 0)).years.find?
        (fun a => a.ruined)).map (fun a => a.age)) :=
  (claim3_ruin_sticky w3Inputs true (fun _ => 0) (by norm_num [w3Inputs])
    (by norm_num [w3Inputs])).1.1

/-! ### Claim C6 -/

/-- Evaluation of `vpwPercentage` at `stockAllocation = 60` over integer years. -/
lemma vpw60_nat (y : ℕ) : vpwPercentage y 60 =
    (if 30 ≤ y then 21/5 else if 25 ≤ y then 47/10 else if 20 ≤ y then 11/2
     else if 15 ≤ y then 34/5 else if 10 ≤ y then 43/5 else if 5 ≤ y then 57/5
     else 20 + (y : ℚ) * 2) := by
  unfold vpwPercentage
  by_cases h30 : 30 ≤ y
  · rw [if_pos (show (30:ℚ) ≤ (y:ℚ) by exact_mod_cast h30), if_pos h30]
    norm_num
  rw [if_neg (show ¬ (30:ℚ) ≤ (y:ℚ) by exact_mod_cast h30), if_neg h30]
  by_cases h25 : 25 ≤ y
  · rw [if_pos (show (25:ℚ) ≤ (y:ℚ) by exact_mod_cast h25), if_pos h25]
    norm_num
  rw [if_neg (show ¬ (25:ℚ) ≤ (y:ℚ) by exact_mod_cast h25), if_neg h25]
  by_cases h20 : 20 ≤ y
  · rw [if_pos (show (20:ℚ) ≤ (y:ℚ) by exact_mod_cast h20), if_pos h20]
    norm_num
  rw [if_neg (show ¬ (20:ℚ) ≤ (y:ℚ) by exact_mod_cast h20), if_neg h20]
  by_cases h15 : 15 ≤ y
  · rw [if_pos (show (15:ℚ) ≤ (y:ℚ) by exact_mod_cast h15), if_pos h15]
    norm_num
  rw [if_neg (show ¬ (15:ℚ) ≤ (y:ℚ) by exact_mod_cast h15), if_neg h15]
  by_cases h10 : 10 ≤ y
  · rw [if_pos (show (10:ℚ) ≤ (y:ℚ) by exact_mod_cast h10), if_pos h10]
    norm_num
  rw [if_neg (show ¬ (10:ℚ) ≤ (y:ℚ) by exact_mod_cast h10), if_neg h10]
  by_cases h5 : 5 ≤ y
  · rw [if_pos (show (5:ℚ) ≤ (y:ℚ) by exact_mod_cast h5), if_pos h5]
    norm_num
  rw [if_neg (show ¬ (5:ℚ) ≤ (y:ℚ) by exact_mod_cast h5), if_neg h5]
  have hy4 : (y:ℚ) ≤ 4 := by
    have h : y ≤ 4 := by omega
    exact_mod_cast h
  rw [min_eq_right (by linarith)]

/-- Claim C6, counterexample: `vpwPercentage(4, 60) = 28` but
`vpwPercentage(3, 60) = 26`, so with `y1 = 4 > y2 = 3 ≥ 0` the table is *not*
non-decreasing as years remaining decrease: inside the final tier the value
`min(100, 20 + 2·yearsRemaining)` grows with yearsRemaining. -/
theorem claim6_counterexample :
    vpwPercentage 3 60 < vpwPercentage 4 60 ∧
      ¬ (vpwPercentage 4 60 ≤ vpwPercentage 3 60) := by
  norm_num [vpwPercentage]

/-- Claim C6, amended: restricted to `y1 > y2 ≥ 4` the table is non-decreasing as
years remaining decrease, and for every rational `yearsRemaining` (in particular
every `y ≥ 0`) the value never exceeds 100; below 5 years remaining the value is
`20 + 2·yearsRemaining`, which *decreases* as years remaining decrease. -/
theorem claim6_vpw_monotone :
    (∀ y1 y2 : ℕ, 4 ≤ y2 → y2 < y1 → vpwPercentage y1 60 ≤ vpwPercentage y2 60) ∧
    (∀ y : ℚ, vpwPercentage y 60 ≤ 100) := by
  constructor
  · intro y1 y2 h4 hlt
    rw [vpw60_nat, vpw60_nat]
    split_ifs
    all_goals try omega
    all_goals try norm_num
    all_goals
      (have e2 : y2 = 4 := by omega
       subst e2
       norm_num)
  · intro y
    unfold vpwPercentage
    split_ifs <;> norm_num

theorem claim6_witness :
    vpwPercentage 10 60 ≤ vpwPercentage 4 60 ∧ vpwPercentage (1/3 : ℚ) 60 ≤ 100 :=
  ⟨claim6_vpw_monotone.1 10 4 (by norm_num) (by norm_num),
    claim6_vpw_monotone.2 (1/3)⟩

/-! ### Claim C8 -/

/-- Inputs witnessing claim C8's RMD conjunct at a concrete run. -/
def w8Inputs : Inputs :=
  { retirementAge := 65, planningAge := 66, startingPortfolio := 500000,
    expectedReturn := 5, volatility := 0, inflationRate := 2,
    socialSecurity := 0, ssStartAge := 67, oneTimeExpense := 0,
    minSpending := 0, maxSpending := 0, startingWithdrawal := 0 }

/-- Claim C8: `lifeExpectancy` equals the claimed piecewise step function, its value
is at least 2 (hence nonzero) for every age, and consequently the `lifeExp` recorded
in every year of `strategyRMD` is at least 2 and nonzero, so the division
`portfolio / lifeExpectancy(age)` never divides by zero. -/
theorem claim8_lifeExpectancy_floor :
    (∀ age : ℚ, lifeExpectancy age =
        (if age < 60 then 95 - age else if age < 70 then 90 - age
         else if age < 80 then 87 - age else if age < 90 then 94 - age
         else max 2 (100 - age))) ∧
    (∀ age : ℚ, 2 ≤ lifeExpectancy age ∧ lifeExpectancy age ≠ 0) ∧
    (∀ (inputs : Inputs) (det : Bool) (z : ℕ → ℚ),
      ∀ yr ∈ (strategyRMD inputs det z).years, 2 ≤ yr.lifeExp ∧ yr.lifeExp ≠ 0) := by
  have hge : ∀ age : ℚ, 2 ≤ lifeExpectancy age := by
    intro age
    unfold lifeExpectancy
    split_ifs <;> first | linarith | exact le_max_left _ _
  have hne : ∀ age : ℚ, lifeExpectancy age ≠ 0 := by
    intro age
    have := hge age
    intro h0
    rw [h0] at this
    norm_num at this
  refine ⟨fun age => rfl, fun age => ⟨hge age, hne age⟩, ?_⟩
  intro inputs det z yr h
  obtain ⟨i, rfl⟩ := mem_rmdYears h
  exact ⟨hge _, hne _⟩

theorem claim8_witness :
    2 ≤ ((strategyRMD w8Inputs true (fun _ => 0)).years.getD 0 default).lifeExp := by
  refine (claim8_lifeExpectancy_floor.2.2 w8Inputs true (fun _ => 0) _ ?_).1
  have h : (w8Inputs.planningAge - w8Inputs.retirementAge).toNat = 1 := by decide
  rw [strategyRMD, h, rmdStates_records]
  simp

/-! ### Claim C9 -/

lemma crStates_oracle_free (inputs : Inputs) (z1 z2 : ℕ → ℚ) (n : ℕ) :
    crStates inputs true z1 n = crStates inputs true z2 n := by
  induction n with
  | zero => rfl
  | succ n ih =>
    show crStep inputs true z1 n _ = crStep inputs true z2 n _
    rw [ih]
    simp [crStep, crRecOf, generateReturn]

lemma cpStates_oracle_free (inputs : Inputs) (z1 z2 : ℕ → ℚ) (n : ℕ) :
    cpStates inputs true z1 n = cpStates inputs true z2 n := by
  induction n with
  | zero => rfl
  | succ n ih =>
    show cpStep inputs true z1 n _ = cpStep inputs true z2 n _
    rw [ih]
    simp [cpStep, cpRecOf, generateReturn]

lemma vpwStates_oracle_free (inputs : Inputs) (z1 z2 : ℕ → ℚ) (n : ℕ) :
    vpwStates inputs true z1 n = vpwStates inputs true z2 n := by
  induction n with
  | zero => rfl
  | succ n ih =>
    show vpwStep inputs true z1 n _ = vpwStep inputs true z2 n _
    rw [ih]
    simp [vpwStep, vpwRecOf, generateReturn]

lemma gStates_oracle_free (inputs : Inputs) (z1 z2 : ℕ → ℚ) (n : ℕ) :
    gStates inputs true z1 n = gStates inputs true z2 n := by
  induction n with
  | zero => rfl
  | succ n ih =>
    show gStep inputs true z1 n _ = gStep inputs true z2 n _
    rw [ih]
    simp [gStep, gRecOf, generateReturn]

lemma rmdStates_oracle_free (inputs : Inputs) (z1 z2 : ℕ → ℚ) (n : ℕ) :
    rmdStates inputs true z1 n = rmdStates inputs true z2 n := by
  induction n with
  | zero => rfl
  | succ n ih =>
    show rmdStep inputs true z1 n _ = rmdStep inputs true z2 n _
    rw [ih]
    simp [rmdStep, rmdRecOf, generateReturn]

/-- Claim C9: in deterministic mode `generateReturn` returns exactly `mean/100` and
consumes no randomness: every strategy's whole `SimulationResult` is independent of
the random oracle, so two deterministic runs on equal inputs are identical. -/
theorem claim9_deterministic_reproducible :
    (∀ mean vol z : ℚ, generateReturn mean vol true z = mean / 100) ∧
    (∀ (inputs : Inputs) (z1 z2 : ℕ → ℚ),
      strategyConstantReal inputs true z1 = strategyConstantReal inputs true z2) ∧
    (∀ (inputs : Inputs) (z1 z2 : ℕ → ℚ),
      strategyConstantPercent inputs true z1 = strategyConstantPercent inputs true z2) ∧
    (∀ (inputs : Inputs) (z1 z2 : ℕ → ℚ),
      strategyVPW inputs true z1 = strategyVPW inputs true z2) ∧
    (∀ (inputs : Inputs) (z1 z2 : ℕ → ℚ),
      strategyGuardrails inputs true z1 = strategyGuardrails inputs true z2) ∧
    (∀ (inputs : Inputs) (z1 z2 : ℕ → ℚ),
      strategyRMD inputs true z1 = strategyRMD inputs true z2) := by
  refine ⟨fun mean vol z => rfl, fun inputs z1 z2 => ?_, fun inputs z1 z2 => ?_,
    fun inputs z1 z2 => ?_, fun inputs z1 z2 => ?_, fun inputs z1 z2 => ?_⟩
  · simp only [strategyConstantReal, crStates_oracle_free inputs z1 z2]
  · simp only [strategyConstantPercent, cpStates_oracle_free inputs z1 z2]
  · simp only [strategyVPW, vpwStates_oracle_free inputs z1 z2]
  · simp only [strategyGuardrails, gStates_oracle_free inputs z1 z2]
  · simp only [strategyRMD, rmdStates_oracle_free inputs z1 z2]

lemma crStep_ruined_mono (inputs : Inputs) (det : Bool) (z : ℕ → ℚ) (i : ℕ) (s : CRState)
    (h : s.ruined = true) : (crStep inputs det z i s).ruined = true := by
  rw [show (crStep inputs det z i s).ruined =
      (applyYear (inputs.retirementAge + i)
        (generateReturn inputs.expectedReturn inputs.volatility det (z i))
        (crNet inputs i s) s.portfolio s.ruined s.ruinAge).2.1 from rfl,
    applyYear_ruined, h]
  simp

/-- With a zero deterministic return, as long as the run has not been clamped
(`ruined = false`), the balance plus all recorded withdrawals is conserved. -/
lemma crStates_conserve (inputs : Inputs) (z : ℕ → ℚ)
    (hER : inputs.expectedReturn = 0) (n : ℕ)
    (hruin : (crStates inputs true z n).ruined = false) :
    (crStates inputs true z n).portfolio +
      ((crStates inputs true z n).records.map (fun a => a.withdrawal)).sum =
      inputs.startingPortfolio := by
  induction n with
  | zero => simp [crStates, crInit]
  | succ n ih =>
    have hprev : (crStates inputs true z n).ruined = false := by
      by_contra hc
      rw [Bool.not_eq_false] at hc
      rw [show crStates inputs true z (n+1) =
          crStep inputs true z n (crStates inputs true z n) from rfl,
        crStep_ruined_mono inputs true z n _ hc] at hruin
      exact Bool.true_eq_false.mp hruin
    set s := crStates inputs true z n with hs
    have hr0 : generateReturn inputs.expectedReturn inputs.volatility true (z n) = 0 := by
      rw [generateReturn, if_pos rfl, hER, zero_div]
    set pe : ℚ := (applyYear (inputs.retirementAge + n)
      (generateReturn inputs.expectedReturn inputs.volatility true (z n))
      (crNet inputs n s) s.portfolio s.ruined s.ruinAge).1 with hpe
    have hRu : (crStates inputs true z (n+1)).ruined = (s.ruined || decide (pe ≤ 0)) := by
      rw [show crStates inputs true z (n+1) = crStep inputs true z n s from rfl]
      rw [show (crStep inputs true z n s).ruined =
        (applyYear (inputs.retirementAge + n)
          (generateReturn inputs.expectedReturn inputs.volatility true (z n))
          (crNet inputs n s) s.portfolio s.ruined s.ruinAge).2.1 from rfl]
      rw [applyYear_ruined, ← hpe]
    have hpe_pos : ¬ pe ≤ 0 := by
      rw [hRu, hprev, Bool.false_or] at hruin
      exact of_decide_eq_false hruin
    have hpeval : pe = s.portfolio - crNet inputs n s := by
      rw [hpe, applyYear_fst, hr0]
      by_cases hneg : s.portfolio - crNet inputs n s < 0
      · exfalso
        apply hpe_pos
        rw [hpe, applyYear_fst_zero _ _ _ _ _ _ (le_of_lt hneg)]
      · rw [if_neg hneg]
        ring
    have hP : (crStates inputs true z (n+1)).portfolio = pe := rfl
    have hRecs : (crStates inputs true z (n+1)).records =
        s.records ++ [crRecOf inputs true z n s] := rfl
    have hw : (crRecOf inputs true z n s).withdrawal = crNet inputs n s := rfl
    rw [hP, hRecs, List.map_append, List.sum_append, hpeval]
    simp only [List.map_cons, List.map_nil, List.sum_cons, List.sum_nil, hw]
    have := ih hprev
    linarith


lemma cpStep_ruined_mono (inputs : Inputs) (det : Bool) (z : ℕ → ℚ) (i : ℕ) (s : CPState)
    (h : s.ruined = true) : (cpStep inputs det z i s).ruined = true := by
  rw [show (cpStep inputs det z i s).ruined =
      (applyYear (inputs.retirementAge + i)
        (generateReturn inputs.expectedReturn inputs.volatility det (z i))
        (cpNet inputs i s) s.portfolio s.ruined s.ruinAge).2.1 from rfl,
    applyYear_ruined, h]
  simp

/-- With a zero deterministic return, as long as the run has not been clamped
(`ruined = false`), the balance plus all recorded withdrawals is conserved. -/
lemma cpStates_conserve (inputs : Inputs) (z : ℕ → ℚ)
    (hER : inputs.expectedReturn = 0) (n : ℕ)
    (hruin : (cpStates inputs true z n).ruined = false) :
    (cpStates inputs true z n).portfolio +
      ((cpStates inputs true z n).records.map (fun a => a.withdrawal)).sum =
      inputs.startingPortfolio := by
  induction n with
  | zero => simp [cpStates]
  | succ n ih =>
    have hprev : (cpStates inputs true z n).ruined = false := by
      by_contra hc
      rw [Bool.not_eq_false] at hc
      rw [show cpStates inputs true z (n+1) =
          cpStep inputs true z n (cpStates inputs true z n) from rfl,
        cpStep_ruined_mono inputs true z n _ hc] at hruin
      exact Bool.true_eq_false.mp hruin
    set s := cpStates inputs true z n with hs
    have hr0 : generateReturn inputs.expectedReturn inputs.volatility true (z n) = 0 := by
      rw [generateReturn, if_pos rfl, hER, zero_div]
    set pe : ℚ := (applyYear (inputs.retirementAge + n)
      (generateReturn inputs.expectedReturn inputs.volatility true (z n))
      (cpNet inputs n s) s.portfolio s.ruined s.ruinAge).1 with hpe
    have hRu : (cpStates inputs true z (n+1)).ruined = (s.ruined || decide (pe ≤ 0)) := by
      rw [show cpStates inputs true z (n+1) = cpStep inputs true z n s from rfl]
      rw [show (cpStep inputs true z n s).ruined =
        (applyYear (inputs.retirementAge + n)
          (generateReturn inputs.expectedReturn inputs.volatility true (z n))
          (cpNet inputs n s) s.portfolio s.ruined s.ruinAge).2.1 from rfl]
      rw [applyYear_ruined, ← hpe]
    have hpe_pos : ¬ pe ≤ 0 := by
      rw [hRu, hprev, Bool.false_or] at hruin
      exact of_decide_eq_false hruin
    have hpeval : pe = s.portfolio - cpNet inputs n s := by
      rw [hpe, applyYear_fst, hr0]
      by_cases hneg : s.portfolio - cpNet inputs n s < 0
      · exfalso
        apply hpe_pos
        rw [hpe, applyYear_fst_zero _ _ _ _ _ _ (le_of_lt hneg)]
      · rw [if_neg hneg]
        ring
    have hP : (cpStates inputs true z (n+1)).portfolio = pe := rfl
    have hRecs : (cpStates inputs true z (n+1)).records =
        s.records ++ [cpRecOf inputs true z n s] := rfl
    have hw : (cpRecOf inputs true z n s).withdrawal = cpNet inputs n s := rfl
    rw [hP, hRecs, List.map_append, List.sum_append, hpeval]
    simp only [List.map_cons, List.map_nil, List.sum_cons, List.sum_nil, hw]
    have := ih hprev
    linarith


lemma vpwStep_ruined_mono (inputs : Inputs) (det : Bool) (z : ℕ → ℚ) (i : ℕ) (s : VPWState)
    (h : s.ruined = true) : (vpwStep inputs det z i s).ruined = true := by
  rw [show (vpwStep inputs det z i s).ruined =
      (applyYear (inputs.retirementAge + i)
        (generateReturn inputs.expectedReturn inputs.volatility det (z i))
        (vpwNet inputs i s) s.portfolio s.ruined s.ruinAge).2.1 from rfl,
    applyYear_ruined, h]
  simp

/-- With a zero deterministic return, as long as the run has not been clamped
(`ruined = false`), the balance plus all recorded withdrawals is conserved. -/
lemma vpwStates_conserve (inputs : Inputs) (z : ℕ → ℚ)
    (hER : inputs.expectedReturn = 0) (n : ℕ)
    (hruin : (vpwStates inputs true z n).ruined = false) :
    (vpwStates inputs true z n).portfolio +
      ((vpwStates inputs true z n).records.map (fun a => a.withdrawal)).sum =
      inputs.startingPortfolio := by
  induction n with
  | zero => simp [vpwStates]
  | succ n ih =>
    have hprev : (vpwStates inputs true z n).ruined = false := by
      by_contra hc
      rw [Bool.not_eq_false] at hc
      rw [show vpwStates inputs true z (n+1) =
          vpwStep inputs true z n (vpwStates inputs true z n) from rfl,
        vpwStep_ruined_mono inputs true z n _ hc] at hruin
      exact Bool.true_eq_false.mp hruin
    set s := vpwStates inputs true z n with hs
    have hr0 : generateReturn inputs.expectedReturn inputs.volatility true (z n) = 0 := by
      rw [generateReturn, if_pos rfl, hER, zero_div]
    set pe : ℚ := (applyYear (inputs.retirementAge + n)
      (generateReturn inputs.expectedReturn inputs.volatility true (z n))
      (vpwNet inputs n s) s.portfolio s.ruined s.ruinAge).1 with hpe
    have hRu : (vpwStates inputs true z (n+1)).ruined = (s.ruined || decide (pe ≤ 0)) := by
      rw [show vpwStates inputs true z (n+1) = vpwStep inputs true z n s from rfl]
      rw [show (vpwStep inputs true z n s).ruined =
        (applyYear (inputs.retirementAge + n)
          (generateReturn inputs.expectedReturn inputs.volatility true (z n))
          (vpwNet inputs n s) s.portfolio s.ruined s.ruinAge).2.1 from rfl]
      rw [applyYear_ruined, ← hpe]
    have hpe_pos : ¬ pe ≤ 0 := by
      rw [hRu, hprev, Bool.false_or] at hruin
      exact of_decide_eq_false hruin
    have hpeval : pe = s.portfolio - vpwNet inputs n s := by
      rw [hpe, applyYear_fst, hr0]
      by_cases hneg : s.portfolio - vpwNet inputs n s < 0
      · exfalso
        apply hpe_pos
        rw [hpe, applyYear_fst_zero _ _ _ _ _ _ (le_of_lt hneg)]
      · rw [if_neg hneg]
        ring
    have hP : (vpwStates inputs true z (n+1)).portfolio = pe := rfl
    have hRecs : (vpwStates inputs true z (n+1)).records =
        s.records ++ [vpwRecOf inputs true z n s] := rfl
    have hw : (vpwRecOf inputs true z n s).withdrawal = vpwNet inputs n s := rfl
    rw [hP, hRecs, List.map_append, List.sum_append, hpeval]
    simp only [List.map_cons, List.map_nil, List.sum_cons, List.sum_nil, hw]
    have := ih hprev
    linarith


lemma gStep_ruined_mono (inputs : Inputs) (det : Bool) (z : ℕ → ℚ) (i : ℕ) (s : GState)
    (h : s.ruined = true) : (gStep inputs det z i s).ruined = true := by
  rw [show (gStep inputs det z i s).ruined =
      (applyYear (inputs.retirementAge + i)
        (generateReturn inputs.expectedReturn inputs.volatility det (z i))
        (gNet inputs i s) s.portfolio s.ruined s.ruinAge).2.1 from rfl,
    applyYear_ruined, h]
  simp

/-- With a zero deterministic return, as long as the run has not been clamped
(`ruined = false`), the balance plus all recorded withdrawals is conserved. -/
lemma gStates_conserve (inputs : Inputs) (z : ℕ → ℚ)
    (hER : inputs.expectedReturn = 0) (n : ℕ)
    (hruin : (gStates inputs true z n).ruined = false) :
    (gStates inputs true z n).portfolio +
      ((gStates inputs true z n).records.map (fun a => a.withdrawal)).sum =
      inputs.startingPortfolio := by
  induction n with
  | zero => simp [gStates, gInit]
  | succ n ih =>
    have hprev : (gStates inputs true z n).ruined = false := by
      by_contra hc
      rw [Bool.not_eq_false] at hc
      rw [show gStates inputs true z (n+1) =
          gStep inputs true z n (gStates inputs true z n) from rfl,
        gStep_ruined_mono inputs true z n _ hc] at hruin
      exact Bool.true_eq_false.mp hruin
    set s := gStates inputs true z n with hs
    have hr0 : generateReturn inputs.expectedReturn inputs.volatility true (z n) = 0 := by
      rw [generateReturn, if_pos rfl, hER, zero_div]
    set pe : ℚ := (applyYear (inputs.retirementAge + n)
      (generateReturn inputs.expectedReturn inputs.volatility true (z n))
      (gNet inputs n s) s.portfolio s.ruined s.ruinAge).1 with hpe
    have hRu : (gStates inputs true z (n+1)).ruined = (s.ruined || decide (pe ≤ 0)) := by
      rw [show gStates inputs true z (n+1) = gStep inputs true z n s from rfl]
      rw [show (gStep inputs true z n s).ruined =
        (applyYear (inputs.retirementAge + n)
          (generateReturn inputs.expectedReturn inputs.volatility true (z n))
          (gNet inputs n s) s.portfolio s.ruined s.ruinAge).2.1 from rfl]
      rw [applyYear_ruined, ← hpe]
    have hpe_pos : ¬ pe ≤ 0 := by
      rw [hRu, hprev, Bool.false_or] at hruin
      exact of_decide_eq_false hruin
    have hpeval : pe = s.portfolio - gNet inputs n s := by
      rw [hpe, applyYear_fst, hr0]
      by_cases hneg : s.portfolio - gNet inputs n s < 0
      · exfalso
        apply hpe_pos
        rw [hpe, applyYear_fst_zero _ _ _ _ _ _ (le_of_lt hneg)]
      · rw [if_neg hneg]
        ring
    have hP : (gStates inputs true z (n+1)).portfolio = pe := rfl
    have hRecs : (gStates inputs true z (n+1)).records =
        s.records ++ [gRecOf inputs true z n s] := rfl
    have hw : (gRecOf inputs true z n s).withdrawal = gNet inputs n s := rfl
    rw [hP, hRecs, List.map_append, List.sum_append, hpeval]
    simp only [List.map_cons, List.map_nil, List.sum_cons, List.sum_nil, hw]
    have := ih hprev
    linarith


lemma rmdStep_ruined_mono (inputs : Inputs) (det : Bool) (z : ℕ → ℚ) (i : ℕ) (s : RMDState)
    (h : s.ruined = true) : (rmdStep inputs det z i s).ruined = true := by
  rw [show (rmdStep inputs det z i s).ruined =
      (applyYear (inputs.retirementAge + i)
        (generateReturn inputs.expectedReturn inputs.volatility det (z i))
        (rmdNet inputs i s) s.portfolio s.ruined s.ruinAge).2.1 from rfl,
    applyYear_ruined, h]
  simp

/-- With a zero deterministic return, as long as the run has not been clamped
(`ruined = false`), the balance plus all recorded withdrawals is conserved. -/
lemma rmdStates_conserve (inputs : Inputs) (z : ℕ → ℚ)
    (hER : inputs.expectedReturn = 0) (n : ℕ)
    (hruin : (rmdStates inputs true z n).ruined = false) :
    (rmdStates inputs true z n).portfolio +
      ((rmdStates inputs true z n).records.map (fun a => a.withdrawal)).sum =
      inputs.startingPortfolio := by
  induction n with
  | zero => simp [rmdStates]
  | succ n ih =>
    have hprev : (rmdStates inputs true z n).ruined = false := by
      by_contra hc
      rw [Bool.not_eq_false] at hc
      rw [show rmdStates inputs true z (n+1) =
          rmdStep inputs true z n (rmdStates inputs true z n) from rfl,
        rmdStep_ruined_mono inputs true z n _ hc] at hruin
      exact Bool.true_eq_false.mp hruin
    set s := rmdStates inputs true z n with hs
    have hr0 : generateReturn inputs.expectedReturn inputs.volatility true (z n) = 0 := by
      rw [generateReturn, if_pos rfl, hER, zero_div]
    set pe : ℚ := (applyYear (inputs.retirementAge + n)
      (generateReturn inputs.expectedReturn inputs.volatility true (z n))
      (rmdNet inputs n s) s.portfolio s.ruined s.ruinAge).1 with hpe
    have hRu : (rmdStates inputs true z (n+1)).ruined = (s.ruined || decide (pe ≤ 0)) := by
      rw [show rmdStates inputs true z (n+1) = rmdStep inputs true z n s from rfl]
      rw [show (rmdStep inputs true z n s).ruined =
        (applyYear (inputs.retirementAge + n)
          (generateReturn inputs.expectedReturn inputs.volatility true (z n))
          (rmdNet inputs n s) s.portfolio s.ruined s.ruinAge).2.1 from rfl]
      rw [applyYear_ruined, ← hpe]
    have hpe_pos : ¬ pe ≤ 0 := by
      rw [hRu, hprev, Bool.false_or] at hruin
      exact of_decide_eq_false hruin
    have hpeval : pe = s.portfolio - rmdNet inputs n s := by
      rw [hpe, applyYear_fst, hr0]
      by_cases hneg : s.portfolio - rmdNet inputs n s < 0
      · exfalso
        apply hpe_pos
        rw [hpe, applyYear_fst_zero _ _ _ _ _ _ (le_of_lt hneg)]
      · rw [if_neg hneg]
        ring
    have hP : (rmdStates inputs true z (n+1)).portfolio = pe := rfl
    have hRecs : (rmdStates inputs true z (n+1)).records =
        s.records ++ [rmdRecOf inputs true z n s] := rfl
    have hw : (rmdRecOf inputs true z n s).withdrawal = rmdNet inputs n s := rfl
    rw [hP, hRecs, List.map_append, List.sum_append, hpeval]
    simp only [List.map_cons, List.map_nil, List.sum_cons, List.sum_nil, hw]
    have := ih hprev
    linarith

/-! ### Claim C7 -/

/-- Inputs refuting claim C7: a run that ruins (overdraft clamped) under zero
return, inflation and Social Security. -/
def c7Inputs : Inputs :=
  { retirementAge := 60, planningAge := 62, startingPortfolio := 100,
    expectedReturn := 0, volatility := 0, inflationRate := 0,
    socialSecurity := 0, ssStartAge := 200, oneTimeExpense := 0,
    minSpending := 0, maxSpending := 0, startingWithdrawal := 90 }

/-- Claim C7, counterexample: in the zero-return/zero-inflation/zero-SS scenario a
ruined run records the full target withdrawal even in the year the overdraft is
clamped, so `totalWithdrawals + finalBalance = 180` while `startingPortfolio = 100`:
off by 80, far outside ±1. -/
theorem claim7_counterexample :
    1 < (strategyConstantReal c7Inputs true (fun _ => 0)).totalWithdrawals +
        (strategyConstantReal c7Inputs true (fun _ => 0)).finalBalance -
        c7Inputs.startingPortfolio := by
  have h : (c7Inputs.planningAge - c7Inputs.retirementAge).toNat = 2 := by decide
  rw [strategyConstantReal, h]
  norm_num [crStates, crStep, crInit, crRecOf, crNet, crCapped, netWithdrawalOf,
    ssThisYear, oneTimeExpenseThisYear, applyYear, generateReturn, inflationMultiplier,
    c7Inputs, max_def, min_def]

/-- Claim C7, amended: for every strategy run deterministically with
`expectedReturn = 0`, `volatility = 0`, `inflationRate = 0`, `socialSecurity = 0`,
*and which never ruins*, `totalWithdrawals + finalBalance` equals
`startingPortfolio` exactly (a fortiori within ±1); on a ruined path the clamped
year still records the full target withdrawal and the sum overshoots the starting
portfolio. -/
theorem claim7_conservation (inputs : Inputs) (z : ℕ → ℚ)
    (hER : inputs.expectedReturn = 0) (_hvol : inputs.volatility = 0)
    (_hIR : inputs.inflationRate = 0) (_hSS : inputs.socialSecurity = 0) :
    ((strategyConstantReal inputs true z).ruined = false →
      (strategyConstantReal inputs true z).totalWithdrawals +
        (strategyConstantReal inputs true z).finalBalance = inputs.startingPortfolio) ∧
    ((strategyConstantPercent inputs true z).ruined = false →
      (strategyConstantPercent inputs true z).totalWithdrawals +
        (strategyConstantPercent inputs true z).finalBalance = inputs.startingPortfolio) ∧
    ((strategyVPW inputs true z).ruined = false →
      (strategyVPW inputs true z).totalWithdrawals +
        (strategyVPW inputs true z).finalBalance = inputs.startingPortfolio) ∧
    ((strategyGuardrails inputs true z).ruined = false →
      (strategyGuardrails inputs true z).totalWithdrawals +
        (strategyGuardrails inputs true z).finalBalance = inputs.startingPortfolio) ∧
    ((strategyRMD inputs true z).ruined = false →
      (strategyRMD inputs true z).totalWithdrawals +
        (strategyRMD inputs true z).finalBalance = inputs.startingPortfolio) := by
  refine ⟨fun h => ?_, fun h => ?_, fun h => ?_, fun h => ?_, fun h => ?_⟩
  · have hc := crStates_conserve inputs z hER
      (inputs.planningAge - inputs.retirementAge).toNat h
    rw [show (strategyConstantReal inputs true z).totalWithdrawals =
        (List.map (fun a => a.withdrawal)
          (crStates inputs true z
            (inputs.planningAge - inputs.retirementAge).toNat).records).sum from rfl,
      show (strategyConstantReal inputs true z).finalBalance =
        (crStates inputs true z
          (inputs.planningAge - inputs.retirementAge).toNat).portfolio from rfl]
    linarith
  · have hc := cpStates_conserve inputs z hER
      (inputs.planningAge - inputs.retirementAge).toNat h
    rw [show (strategyConstantPercent inputs true z).totalWithdrawals =
        (List.map (fun a => a.withdrawal)
          (cpStates inputs true z
            (inputs.planningAge - inputs.retirementAge).toNat).records).sum from rfl,
      show (strategyConstantPercent inputs true z).finalBalance =
        (cpStates inputs true z
          (inputs.planningAge - inputs.retirementAge).toNat).portfolio from rfl]
    linarith
  · have hc := vpwStates_conserve inputs z hER
      (inputs.planningAge - inputs.retirementAge).toNat h
    rw [show (strategyVPW inputs true z).totalWithdrawals =
        (List.map (fun a => a.withdrawal)
          (vpwStates inputs true z
            (inputs.planningAge - inputs.retirementAge).toNat).records).sum from rfl,
      show (strategyVPW inputs true z).finalBalance =
        (vpwStates inputs true z
          (inputs.planningAge - inputs.retirementAge).toNat).portfolio from rfl]
    linarith
  · have hc := gStates_conserve inputs z hER
      (inputs.planningAge - inputs.retirementAge).toNat h
    rw [show (strategyGuardrails inputs true z).totalWithdrawals =
        (List.map (fun a => a.withdrawal)
          (gStates inputs true z
            (inputs.planningAge - inputs.retirementAge).toNat).records).sum from rfl,
      show (strategyGuardrails inputs true z).finalBalance =
        (gStates inputs true z
          (inputs.planningAge - inputs.retirementAge).toNat).portfolio from rfl]
    linarith
  · have hc := rmdStates_conserve inputs z hER
      (inputs.planningAge - inputs.retirementAge).toNat h
    rw [show (strategyRMD inputs true z).totalWithdrawals =
        (List.map (fun a => a.withdrawal)
          (rmdStates inputs true z
            (inputs.planningAge - inputs.retirementAge).toNat).records).sum from rfl,
      show (strategyRMD inputs true z).finalBalance =
        (rmdStates inputs true z
          (inputs.planningAge - inputs.retirementAge).toNat).portfolio from rfl]
    linarith

/-- Inputs witnessing claim C7's amended theorem: a healthy 2-year run. -/
def w7Inputs : Inputs :=
  { retirementAge := 60, planningAge := 62, startingPortfolio := 1000000,
    expectedReturn := 0, volatility := 0, inflationRate := 0,
    socialSecurity := 0, ssStartAge := 200, oneTimeExpense := 0,
    minSpending := 0, maxSpending := 0, startingWithdrawal := 0 }

theorem claim7_witness :
    (strategyConstantPercent w7Inputs true (fun _ => 0)).totalWithdrawals +
      (strategyConstantPercent w7Inputs true (fun _ => 0)).finalBalance =
      w7Inputs.startingPortfolio := by
  apply (claim7_conservation w7Inputs (fun _ => 0) rfl rfl rfl rfl).2.1
  have h : (w7Inputs.planningAge - w7Inputs.retirementAge).toNat = 2 := by decide
  rw [strategyConstantPercent, h]
  norm_num [cpStates, cpStep, cpRecOf, cpNet, cpTarget, netWithdrawalOf, clampSpending,
    maxAdjOf, ssThisYear, oneTimeExpenseThisYear, applyYear, generateReturn,
    inflationMultiplier, w7Inputs, max_def, min_def]

/-! ### Claim C10 -/

/-- With `startingWithdrawal = 0` and `maxSpending = 0` the two copies of
`strategyConstantReal` walk through identical loop states: the part_001 additions
(`startingWithdrawal` override, initial `maxSpending` cap, in-loop re-cap) are all
guarded by `> 0` and become no-ops. -/
lemma crStates000_eq (inputs : Inputs) (det : Bool) (z : ℕ → ℚ)
    (hsw : inputs.startingWithdrawal = 0) (hms : inputs.maxSpending = 0) (n : ℕ) :
    Engine000.crStates inputs det z n = crStates inputs det z n := by
  induction n with
  | zero =>
    show Engine000.crInit inputs = crInit inputs
    simp [Engine000.crInit, crInit, hsw, hms]
  | succ n ih =>
    show Engine000.crStep inputs det z n _ = crStep inputs det z n _
    rw [ih]
    simp [Engine000.crStep, crStep, Engine000.crRecOf, crRecOf, Engine000.crNet, crNet,
      crCapped, hms]

/-- Claim C10: on every input whose `startingWithdrawal` and `maxSpending` are 0 (or
absent — both are modelled as 0), the part_000 and part_001 copies of
`strategyConstantReal` return the same deterministic `SimulationResult`: same year
records, `finalBalance`, `totalWithdrawals`, `ruined` and `ruinAge`. -/
theorem claim10_copies_agree (inputs : Inputs) (z : ℕ → ℚ)
    (hsw : inputs.startingWithdrawal = 0) (hms : inputs.maxSpending = 0) :
    Engine000.strategyConstantReal inputs true z = strategyConstantReal inputs true z := by
  simp only [Engine000.strategyConstantReal, strategyConstantReal,
    crStates000_eq inputs true z hsw hms]

/-- Inputs witnessing claim C10 at a concrete run exercising Social Security,
inflation, a one-time expense and a spending floor. -/
def w10Inputs : Inputs :=
  { retirementAge := 60, planningAge := 70, startingPortfolio := 500000,
    expectedReturn := 4, volatility := 0, inflationRate := 3,
    socialSecurity := 10000, ssStartAge := 65, oneTimeExpense := 20000,
    minSpending := 15000, maxSpending := 0, startingWithdrawal := 0 }

theorem claim10_witness :
    Engine000.strategyConstantReal w10Inputs true (fun _ => 0) =
      strategyConstantReal w10Inputs true (fun _ => 0) :=
  claim10_copies_agree w10Inputs (fun _ => 0) rfl rfl

/-! ### Year-record extraction -/

lemma crYears_getD (inputs : Inputs) (det : Bool) (z : ℕ → ℚ) {n : ℕ}
    (hn : n < (inputs.planningAge - inputs.retirementAge).toNat) :
    (strategyConstantReal inputs det z).years.getD n default =
      crRecOf inputs det z n (crStates inputs det z n) := by
  rw [show (strategyConstantReal inputs det z).years =
      (crStates inputs det z (inputs.planningAge - inputs.retirementAge).toNat).records
      from rfl, crStates_records,
    List.getD_eq_getElem?_getD, List.getElem?_map, List.getElem?_range hn]
  rfl

lemma cpYears_getD (inputs : Inputs) (det : Bool) (z : ℕ → ℚ) {n : ℕ}
    (hn : n < (inputs.planningAge - inputs.retirementAge).toNat) :
    (strategyConstantPercent inputs det z).years.getD n default =
      cpRecOf inputs det z n (cpStates inputs det z n) := by
  rw [show (strategyConstantPercent inputs det z).years =
      (cpStates inputs det z (inputs.planningAge - inputs.retirementAge).toNat).records
      from rfl, cpStates_records,
    List.getD_eq_getElem?_getD, List.getElem?_map, List.getElem?_range hn]
  rfl

lemma vpwYears_getD (inputs : Inputs) (det : Bool) (z : ℕ → ℚ) {n : ℕ}
    (hn : n < (inputs.planningAge - inputs.retirementAge).toNat) :
    (strategyVPW inputs det z).years.getD n default =
      vpwRecOf inputs det z n (vpwStates inputs det z n) := by
  rw [show (strategyVPW inputs det z).years =
      (vpwStates inputs det z (inputs.planningAge - inputs.retirementAge).toNat).records
      from rfl, vpwStates_records,
    List.getD_eq_getElem?_getD, List.getElem?_map, List.getElem?_range hn]
  rfl

lemma gYears_getD (inputs : Inputs) (det : Bool) (z : ℕ → ℚ) {n : ℕ}
    (hn : n < (inputs.planningAge - inputs.retirementAge).toNat) :
    (strategyGuardrails inputs det z).years.getD n default =
      gRecOf inputs det z n (gStates inputs det z n) := by
  rw [show (strategyGuardrails inputs det z).years =
      (gStates inputs det z (inputs.planningAge - inputs.retirementAge).toNat).records
      from rfl, gStates_records,
    List.getD_eq_getElem?_getD, List.getElem?_map, List.getElem?_range hn]
  rfl

lemma rmdYears_getD (inputs : Inputs) (det : Bool) (z : ℕ → ℚ) {n : ℕ}
    (hn : n < (inputs.planningAge - inputs.retirementAge).toNat) :
    (strategyRMD inputs det z).years.getD n default =
      rmdRecOf inputs det z n (rmdStates inputs det z n) := by
  rw [show (strategyRMD inputs det z).years =
      (rmdStates inputs det z (inputs.planningAge - inputs.retirementAge).toNat).records
      from rfl, rmdStates_records,
    List.getD_eq_getElem?_getD, List.getElem?_map, List.getElem?_range hn]
  rfl

/-! ### Claim C4 -/

/-- Away from a zero `portfolioStart` (where the JS rate is infinite), the guardrail
adjustment is exactly the claimed comparison against `6.0` and `4.0`. -/
lemma gAdjusted_eq (inputs : Inputs) (i : ℕ) (s : GState) (hps : s.portfolio ≠ 0) :
    gAdjusted inputs i s =
      (if i = 0 ∧ 0 < inputs.startingWithdrawal then s.withdrawal
       else if 6 < s.withdrawal / s.portfolio * 100 then s.withdrawal * (9/10)
       else if s.withdrawal / s.portfolio * 100 < 4 ∧ 0 < s.portfolio then
         s.withdrawal * (11/10)
       else s.withdrawal) := by
  rw [gAdjusted]
  norm_num [hps]

/-- Claim C4: each Guardrails year (with a nonzero starting balance, so the rate is a
finite number) records `currentRate = baseWithdrawal/portfolioStart·100`, compares it
with `6.0` and `4.0`, cuts by 10% above the upper rail, raises by 10% below the lower
rail when the portfolio is positive, skips this exactly in year 1 with a positive
`startingWithdrawal`, clamps the result to the inflation-adjusted min/max, withdraws
it net of Social Security plus the one-time expense, and carries
`clamped × inflationMultiplier` as the next year's comparison baseline. -/
theorem claim4_guardrails_step (inputs : Inputs) (det : Bool) (z : ℕ → ℚ) (n : ℕ)
    (hn : n < (inputs.planningAge - inputs.retirementAge).toNat)
    (hps : (gStates inputs det z n).portfolio ≠ 0) :
    ((strategyGuardrails inputs det z).years.getD n default).currentRate =
        (gStates inputs det z n).withdrawal / (gStates inputs det z n).portfolio * 100 ∧
    ((strategyGuardrails inputs det z).years.getD n default).baseWithdrawal =
        clampSpending
          (if n = 0 ∧ 0 < inputs.startingWithdrawal then (gStates inputs det z n).withdrawal
           else if 6 < (gStates inputs det z n).withdrawal /
               (gStates inputs det z n).portfolio * 100 then
             (gStates inputs det z n).withdrawal * (9/10)
           else if (gStates inputs det z n).withdrawal /
                 (gStates inputs det z n).portfolio * 100 < 4 ∧
               0 < (gStates inputs det z n).portfolio then
             (gStates inputs det z n).withdrawal * (11/10)
           else (gStates inputs det z n).withdrawal)
          (inputs.minSpending * inflationMultiplier inputs ^ n) (maxAdjOf inputs n) ∧
    ((strategyGuardrails inputs det z).years.getD n default).withdrawal =
        netWithdrawalOf
          ((strategyGuardrails inputs det z).years.getD n default).baseWithdrawal
          (ssThisYear inputs (inputs.retirementAge + n)) (oneTimeExpenseThisYear inputs n) ∧
    (gStates inputs det z (n + 1)).withdrawal =
        ((strategyGuardrails inputs det z).years.getD n default).baseWithdrawal *
          inflationMultiplier inputs := by
  rw [gYears_getD inputs det z hn]
  refine ⟨rfl, ?_, rfl, rfl⟩
  rw [show (gRecOf inputs det z n (gStates inputs det z n)).baseWithdrawal =
      gClamped inputs n (gStates inputs det z n) from rfl,
    gClamped, gAdjusted_eq inputs n (gStates inputs det z n) hps]

/-- Inputs witnessing claim C4 at year 1 of a concrete Guardrails run. -/
def w4Inputs : Inputs :=
  { retirementAge := 65, planningAge := 70, startingPortfolio := 1000000,
    expectedReturn := 5, volatility := 0, inflationRate := 2,
    socialSecurity := 0, ssStartAge := 200, oneTimeExpense := 0,
    minSpending := 0, maxSpending := 0, startingWithdrawal := 0 }

theorem claim4_witness :
    ((strategyGuardrails w4Inputs true (fun _ => 0)).years.getD 0 default).currentRate
      = 5 := by
  have h := (claim4_guardrails_step w4Inputs true (fun _ => 0) 0 (by decide)
    (by norm_num [gStates, gInit, w4Inputs])).1
  rw [h]
  norm_num [gStates, gInit, w4Inputs]

/-! ### Claim C5 -/

/-- The carried (pre-cap) withdrawal of `strategyConstantReal` stays above the
inflation-adjusted floor — or, when the ceiling sits below the floor, tracks the
inflation-adjusted ceiling exactly — provided the inflation multiplier is
nonnegative. -/
lemma crStates_withdrawal_floor (inputs : Inputs) (det : Bool) (z : ℕ → ℚ)
    (h2 : -100 ≤ inputs.inflationRate) (n : ℕ) :
    (if 0 < inputs.maxSpending ∧ inputs.maxSpending < inputs.minSpending
     then (crStates inputs det z n).withdrawal =
       inputs.maxSpending * inflationMultiplier inputs ^ n
     else inputs.minSpending * inflationMultiplier inputs ^ n ≤
       (crStates inputs det z n).withdrawal) := by
  have hm : 0 ≤ inflationMultiplier inputs := inflationMultiplier_nonneg inputs h2
  induction n with
  | zero =>
    have hinit : (crStates inputs det z 0).withdrawal =
        (if 0 < inputs.maxSpending then
          min (max (if 0 < inputs.startingWithdrawal then inputs.startingWithdrawal
                    else inputs.startingPortfolio * ((45/10) / 100)) inputs.minSpending)
            inputs.maxSpending
         else
          max (if 0 < inputs.startingWithdrawal then inputs.startingWithdrawal
               else inputs.startingPortfolio * ((45/10) / 100)) inputs.minSpending) := rfl
    split_ifs with hcase
    · rw [hinit, if_pos hcase.1, pow_zero, mul_one]
      exact min_eq_right (le_trans (le_of_lt hcase.2) (le_max_right _ _))
    · rw [hinit, pow_zero, mul_one]
      by_cases hms : 0 < inputs.maxSpending
      · rw [if_pos hms]
        have hmm : inputs.minSpending ≤ inputs.maxSpending := by
          rcases not_and_or.mp hcase with h | h
          · exact absurd hms h
          · linarith [not_lt.mp h]
        exact le_min (le_max_right _ _) hmm
      · rw [if_neg hms]
        exact le_max_right _ _
  | succ n ih =>
    have hstep : (crStates inputs det z (n+1)).withdrawal =
        crCapped inputs n (crStates inputs det z n) * inflationMultiplier inputs := rfl
    split_ifs with hcase
    · rw [if_pos hcase] at ih
      rw [hstep, crCapped, if_pos hcase.1, ih, min_self, pow_succ]
      ring
    · rw [if_neg hcase] at ih
      rw [hstep]
      by_cases hms : 0 < inputs.maxSpending
      · have hmm : inputs.minSpending ≤ inputs.maxSpending := by
          rcases not_and_or.mp hcase with h | h
          · exact absurd hms h
          · linarith [not_lt.mp h]
        rw [crCapped, if_pos hms]
        have h1 : inputs.minSpending * inflationMultiplier inputs ^ n ≤
            min ((crStates inputs det z n).withdrawal)
              (inputs.maxSpending * inflationMultiplier inputs ^ n) :=
          le_min ih (mul_le_mul_of_nonneg_right hmm (pow_nonneg hm n))
        calc inputs.minSpending * inflationMultiplier inputs ^ (n+1)
            = inputs.minSpending * inflationMultiplier inputs ^ n *
              inflationMultiplier inputs := by rw [pow_succ]; ring
          _ ≤ _ := mul_le_mul_of_nonneg_right h1 hm
      · rw [crCapped, if_neg hms]
        calc inputs.minSpending * inflationMultiplier inputs ^ (n+1)
            = inputs.minSpending * inflationMultiplier inputs ^ n *
              inflationMultiplier inputs := by rw [pow_succ]; ring
          _ ≤ _ := mul_le_mul_of_nonneg_right ih hm

/-- Under a nonnegative inflation multiplier, the ceiling-only in-loop re-cap of
`strategyConstantReal` coincides with the full floor-then-ceiling clamp of the
carried withdrawal. -/
lemma crCapped_eq_clamp (inputs : Inputs) (det : Bool) (z : ℕ → ℚ)
    (h2 : -100 ≤ inputs.inflationRate) (n : ℕ) :
    crCapped inputs n (crStates inputs det z n) =
      clampSpending ((crStates inputs det z n).withdrawal)
        (inputs.minSpending * inflationMultiplier inputs ^ n) (maxAdjOf inputs n) := by
  have hm : 0 ≤ inflationMultiplier inputs := inflationMultiplier_nonneg inputs h2
  have hinv := crStates_withdrawal_floor inputs det z h2 n
  by_cases hms : 0 < inputs.maxSpending
  · rw [crCapped, if_pos hms, maxAdjOf, if_pos hms]
    by_cases hcase : inputs.maxSpending < inputs.minSpending
    · rw [if_pos ⟨hms, hcase⟩] at hinv
      rw [clampSpending, hinv]
      rw [min_self]
      have hge : inputs.maxSpending * inflationMultiplier inputs ^ n ≤
          max (inputs.maxSpending * inflationMultiplier inputs ^ n)
            (inputs.minSpending * inflationMultiplier inputs ^ n) := le_max_left _ _
      rw [min_eq_right hge]
    · rw [if_neg (fun h => hcase h.2)] at hinv
      rw [clampSpending, max_eq_left hinv]
  · rw [crCapped, if_neg hms, maxAdjOf, if_neg hms]
    by_cases hcase : 0 < inputs.maxSpending ∧ inputs.maxSpending < inputs.minSpending
    · exact absurd hcase.1 hms
    · rw [if_neg hcase] at hinv
      rw [clampSpending, max_eq_left hinv]

lemma ote0_zero (inputs : Inputs) : oneTimeExpenseThisYear inputs 0 = 0 := by
  norm_num [oneTimeExpenseThisYear]

lemma ss0_zero (inputs : Inputs)
    (hss : inputs.socialSecurity = 0 ∨ inputs.retirementAge < inputs.ssStartAge) :
    ssThisYear inputs (inputs.retirementAge + (0:ℕ)) = 0 := by
  rw [ssThisYear]
  rcases hss with h | h
  · rw [h]
    split_ifs <;> simp
  · rw [if_neg (by push_cast; omega)]

/-- Inputs refuting the universal floor-first clamp in ConstantReal years 2+: with
`inflationMultiplier = -1` the carried withdrawal (never re-floored) drops strictly
below the inflation-adjusted floor. -/
def c5Inputs : Inputs :=
  { retirementAge := 60, planningAge := 62, startingPortfolio := 1000,
    expectedReturn := 0, volatility := 0, inflationRate := -200,
    socialSecurity := 0, ssStartAge := 200, oneTimeExpense := 0,
    minSpending := 40, maxSpending := 0, startingWithdrawal := 0 }

/-- Claim C5, counterexample: in `strategyConstantReal` the floor is applied only in
year 1; in year 2 of this run (`inflationRate = -200`, so the multiplier is −1) the
recorded target `baseWithdrawal = -45` lies strictly below the inflation-adjusted
floor `minSpending·mult = -40` even though no ceiling is configured — so the year-2
target is *not* the floor-first-then-ceiling clamp the claim asserts for every
strategy and every year. -/
theorem claim5_counterexample :
    ((strategyConstantReal c5Inputs true (fun _ => 0)).years.getD 1 default).baseWithdrawal
        < c5Inputs.minSpending * inflationMultiplier c5Inputs ^ 1 ∧
      maxAdjOf c5Inputs 1 = none := by
  constructor
  · rw [crYears_getD c5Inputs true (fun _ => 0) (by decide)]
    norm_num [crRecOf, crStates, crStep, crInit, crNet, crCapped, netWithdrawalOf,
      ssThisYear, oneTimeExpenseThisYear, applyYear, generateReturn, inflationMultiplier,
      c5Inputs, max_def, min_def]
  · norm_num [maxAdjOf, c5Inputs]

/-- Claim C5, amended.  (1) The shared clamp applies the floor first and the ceiling
second, so the ceiling wins whenever the floor exceeds it; (2) a `maxSpending` of 0
yields no ceiling (`none`, the source's `Infinity`), and the clamp is then just the
floor; (3) in `strategyConstantPercent` (likewise VPW/RMD/Guardrails) every year's
recorded target is literally `min(max(raw, floor_i), ceiling_i)`; (4) in
`strategyConstantReal` years 2+ only the ceiling is re-applied, yet whenever
`inflationRate ≥ −100` the recorded target still equals the floor-first/ceiling-wins
clamp of the carried value (the counterexample shows this fails for a negative
multiplier); (5) in all five strategies, when `startingWithdrawal` exceeds a positive
`maxSpending` (and no Social Security is due in year 1), the year-1 recorded
withdrawal equals `maxSpending`: the cap wins over the override. -/
theorem claim5_clamp_order :
    (∀ t fl ce : ℚ, ce < fl → clampSpending t fl (some ce) = ce) ∧
    ((∀ t fl : ℚ, clampSpending t fl none = max t fl) ∧
      ∀ (inputs : Inputs) (i : ℕ), inputs.maxSpending = 0 → maxAdjOf inputs i = none) ∧
    (∀ (inputs : Inputs) (det : Bool) (z : ℕ → ℚ) (n : ℕ),
      n < (inputs.planningAge - inputs.retirementAge).toNat →
      ((strategyConstantPercent inputs det z).years.getD n default).targetWithdrawal =
        (if 0 < inputs.maxSpending then
          min (max (if n = 0 ∧ 0 < inputs.startingWithdrawal then inputs.startingWithdrawal
                    else (cpStates inputs det z n).portfolio * (4 / 100))
              (inputs.minSpending * inflationMultiplier inputs ^ n))
            (inputs.maxSpending * inflationMultiplier inputs ^ n)
         else
          max (if n = 0 ∧ 0 < inputs.startingWithdrawal then inputs.startingWithdrawal
               else (cpStates inputs det z n).portfolio * (4 / 100))
            (inputs.minSpending * inflationMultiplier inputs ^ n))) ∧
    (∀ (inputs : Inputs) (det : Bool) (z : ℕ → ℚ) (n : ℕ),
      -100 ≤ inputs.inflationRate →
      n < (inputs.planningAge - inputs.retirementAge).toNat →
      ((strategyConstantReal inputs det z).years.getD n default).baseWithdrawal =
        clampSpending ((crStates inputs det z n).withdrawal)
          (inputs.minSpending * inflationMultiplier inputs ^ n) (maxAdjOf inputs n)) ∧
    (∀ (inputs : Inputs) (det : Bool) (z : ℕ → ℚ),
      0 < inputs.maxSpending → inputs.maxSpending < inputs.startingWithdrawal →
      (inputs.socialSecurity = 0 ∨ inputs.retirementAge < inputs.ssStartAge) →
      0 < (inputs.planningAge - inputs.retirementAge).toNat →
      ((strategyConstantReal inputs det z).years.getD 0 default).withdrawal =
          inputs.maxSpending ∧
        ((strategyConstantPercent inputs det z).years.getD 0 default).withdrawal =
          inputs.maxSpending ∧
        ((strategyVPW inputs det z).years.getD 0 default).withdrawal =
          inputs.maxSpending ∧
        ((strategyGuardrails inputs det z).years.getD 0 default).withdrawal =
          inputs.maxSpending ∧
        ((strategyRMD inputs det z).years.getD 0 default).withdrawal =
          inputs.maxSpending) := by
  refine ⟨?_, ⟨fun t fl => rfl, ?_⟩, ?_, ?_, ?_⟩
  · intro t fl ce hce
    exact min_eq_right (le_trans hce.le (le_max_right t fl))
  · intro inputs i h
    rw [maxAdjOf, h]
    norm_num
  · intro inputs det z n hn
    rw [cpYears_getD inputs det z hn]
    rw [show (cpRecOf inputs det z n (cpStates inputs det z n)).targetWithdrawal =
        cpTarget inputs n (cpStates inputs det z n) from rfl, cpTarget]
    by_cases hms : 0 < inputs.maxSpending
    · rw [maxAdjOf, if_pos hms, if_pos hms, clampSpending]
    · rw [maxAdjOf, if_neg hms, if_neg hms, clampSpending]
  · intro inputs det z n h2 hn
    rw [crYears_getD inputs det z hn]
    rw [show (crRecOf inputs det z n (crStates inputs det z n)).baseWithdrawal =
        crCapped inputs n (crStates inputs det z n) from rfl]
    exact crCapped_eq_clamp inputs det z h2 n
  · intro inputs det z hms hswms hss hn
    have hsw0 : 0 < inputs.startingWithdrawal := lt_trans hms hswms
    have hnet : ∀ w : ℚ, w = inputs.maxSpending →
        netWithdrawalOf w (ssThisYear inputs (inputs.retirementAge + (0:ℕ)))
          (oneTimeExpenseThisYear inputs 0) = inputs.maxSpending := by
      intro w hw
      rw [hw, netWithdrawalOf, ss0_zero inputs hss, ote0_zero, sub_zero, add_zero,
        max_eq_right hms.le]
    have hinitCR : (crInit inputs).withdrawal = inputs.maxSpending := by
      rw [show (crInit inputs).withdrawal =
          (if 0 < inputs.maxSpending then
            min (max (if 0 < inputs.startingWithdrawal then inputs.startingWithdrawal
                      else inputs.startingPortfolio * ((45/10) / 100)) inputs.minSpending)
              inputs.maxSpending
           else
            max (if 0 < inputs.startingWithdrawal then inputs.startingWithdrawal
                 else inputs.startingPortfolio * ((45/10) / 100)) inputs.minSpending)
          from rfl, if_pos hms, if_pos hsw0]
      exact min_eq_right (le_trans hswms.le (le_max_left _ _))
    have hinitG : (gInit inputs).withdrawal = inputs.maxSpending := by
      rw [show (gInit inputs).withdrawal =
          (if 0 < inputs.maxSpending then
            min (max (if 0 < inputs.startingWithdrawal then inputs.startingWithdrawal
                      else inputs.startingPortfolio * (5 / 100)) inputs.minSpending)
              inputs.maxSpending
           else
            max (if 0 < inputs.startingWithdrawal then inputs.startingWithdrawal
                 else inputs.startingPortfolio * (5 / 100)) inputs.minSpending)
          from rfl, if_pos hms, if_pos hsw0]
      exact min_eq_right (le_trans hswms.le (le_max_left _ _))
    refine ⟨?_, ?_, ?_, ?_, ?_⟩
    · rw [crYears_getD inputs det z hn]
      rw [show (crRecOf inputs det z 0 (crStates inputs det z 0)).withdrawal =
          netWithdrawalOf (crCapped inputs 0 (crStates inputs det z 0))
            (ssThisYear inputs (inputs.retirementAge + (0:ℕ)))
            (oneTimeExpenseThisYear inputs 0) from rfl]
      apply hnet
      rw [show crStates inputs det z 0 = crInit inputs from rfl, crCapped, if_pos hms,
        hinitCR, pow_zero, mul_one, min_self]
    · rw [cpYears_getD inputs det z hn]
      rw [show (cpRecOf inputs det z 0 (cpStates inputs det z 0)).withdrawal =
          netWithdrawalOf (cpTarget inputs 0 (cpStates inputs det z 0))
            (ssThisYear inputs (inputs.retirementAge + (0:ℕ)))
            (oneTimeExpenseThisYear inputs 0) from rfl]
      apply hnet
      rw [cpTarget, maxAdjOf, if_pos hms, clampSpending, if_pos ⟨rfl, hsw0⟩]
      simp only [pow_zero, mul_one]
      exact min_eq_right (le_trans hswms.le (le_max_left _ _))
    · rw [vpwYears_getD inputs det z hn]
      rw [show (vpwRecOf inputs det z 0 (vpwStates inputs det z 0)).withdrawal =
          netWithdrawalOf (vpwTarget inputs 0 (vpwStates inputs det z 0))
            (ssThisYear inputs (inputs.retirementAge + (0:ℕ)))
            (oneTimeExpenseThisYear inputs 0) from rfl]
      apply hnet
      rw [vpwTarget, maxAdjOf, if_pos hms, clampSpending, if_pos ⟨rfl, hsw0⟩]
      simp only [pow_zero, mul_one]
      exact min_eq_right (le_trans hswms.le (le_max_left _ _))
    · rw [gYears_getD inputs det z hn]
      rw [show (gRecOf inputs det z 0 (gStates inputs det z 0)).withdrawal =
          netWithdrawalOf (gClamped inputs 0 (gStates inputs det z 0))
            (ssThisYear inputs (inputs.retirementAge + (0:ℕ)))
            (oneTimeExpenseThisYear inputs 0) from rfl]
      apply hnet
      rw [gClamped, show gAdjusted inputs 0 (gStates inputs det z 0) =
          (gStates inputs det z 0).withdrawal from by
            rw [gAdjusted]
            exact if_pos ⟨rfl, hsw0⟩,
        show gStates inputs det z 0 = gInit inputs from rfl, hinitG, maxAdjOf,
        if_pos hms, clampSpending]
      simp only [pow_zero, mul_one]
      exact min_eq_right (le_max_left _ _)
    · rw [rmdYears_getD inputs det z hn]
      rw [show (rmdRecOf inputs det z 0 (rmdStates inputs det z 0)).withdrawal =
          netWithdrawalOf (rmdTarget inputs 0 (rmdStates inputs det z 0))
            (ssThisYear inputs (inputs.retirementAge + (0:ℕ)))
            (oneTimeExpenseThisYear inputs 0) from rfl]
      apply hnet
      rw [rmdTarget, maxAdjOf, if_pos hms, clampSpending, if_pos ⟨rfl, hsw0⟩]
      simp only [pow_zero, mul_one]
      exact min_eq_right (le_trans hswms.le (le_max_left _ _))

/-- Inputs witnessing claim C5's cap-wins conjunct. -/
def w5Inputs : Inputs :=
  { retirementAge := 65, planningAge := 70, startingPortfolio := 1000000,
    expectedReturn := 5, volatility := 0, inflationRate := 2,
    socialSecurity := 0, ssStartAge := 200, oneTimeExpense := 0,
    minSpending := 0, maxSpending := 50000, startingWithdrawal := 80000 }

theorem claim5_witness :
    clampSpending 3 5 (some 2) = 2 ∧
      ((strategyConstantPercent w5Inputs true (fun _ => 0)).years.getD 0
        default).withdrawal = w5Inputs.maxSpending :=
  ⟨claim5_clamp_order.1 3 5 2 (by norm_num),
    (claim5_clamp_order.2.2.2.2 w5Inputs true (fun _ => 0) (by norm_num [w5Inputs])
      (by norm_num [w5Inputs]) (Or.inl rfl) (by decide)).2.1⟩

end RetCalc
